import Mathlib

/-!
# Verification of the prompt-search ingestion and retrieval core

A shallow embedding of the incremental JSONL ingestion pipeline
(`ingest.py`, `extract.py`, `util.py`) and of the dual-mode retrieval
engine (`search.py`), together with theorems settling the specified
properties of the system.

Modelling conventions:
* Python `str` values are lists of Unicode code points (`List Nat`);
  raw file contents are lists of bytes (`List Nat`, each `< 256`).
* Python `float` timestamps (`st_mtime`, parsed ISO timestamps) are
  modelled as exact rationals (`Rat`).
* The embedded database (DuckDB) is modelled as explicit association
  lists with the upsert / insert-or-ignore semantics the source relies
  on; SQL `LEAST`/`GREATEST` ignore NULL arguments (PostgreSQL-style,
  which is DuckDB's behaviour) and `COALESCE` picks the first non-NULL.
* Effects that live outside the program (filesystem stat results, the
  optional FTS extension, injected runtime faults) are inputs.
-/

set_option autoImplicit false

namespace PromptSearch

/-- Code points of a Lean string literal, used to write Python string
values compactly. -/
def str2cp (s : String) : List Nat :=
  s.data.map Char.toNat

/-- Python `str.isspace` code points (the ones relevant to `str.strip()`
and `str.split()`). -/
def isPySpace (c : Nat) : Bool :=
  (9 ≤ c && c ≤ 13) || (28 ≤ c && c ≤ 31) || c = 32 || c = 133 || c = 160 ||
  c = 5760 || (8192 ≤ c && c ≤ 8202) || c = 8232 || c = 8233 || c = 8239 ||
  c = 8287 || c = 12288

/-- `str.lstrip()` on code points. -/
def pyLStrip (cs : List Nat) : List Nat :=
  cs.dropWhile isPySpace

/-- `str.strip()` on code points. -/
def pyStrip (cs : List Nat) : List Nat :=
  ((cs.dropWhile isPySpace).reverse.dropWhile isPySpace).reverse

/-- ASCII lowering of one code point (the fragment of Python `str.lower`
exercised by the repository's queries and documents). -/
def lowerCp (c : Nat) : Nat :=
  if 65 ≤ c && c ≤ 90 then c + 32 else c

/-- Python `str.lower` restricted to ASCII case folding. -/
def lowerL (cs : List Nat) : List Nat :=
  cs.map lowerCp

/-- Is `b` a UTF-8 continuation byte (`0x80..0xBF`)? -/
def utf8Cont (b : Nat) : Bool :=
  128 ≤ b && b < 192

/-- Decode the UTF-8 sequence at the head of `bs`.  Returns
`(some codepoint, bytesConsumed)` on success and `(none, consumed)` on an
invalid sequence, where `consumed ≥ 1` is the maximal subpart consumed
(CPython's error granularity).  Overlong encodings, surrogates and
values above `U+10FFFF` are invalid, as in CPython's `utf-8` codec. -/
def utf8Step (bs : List Nat) : Option Nat × Nat :=
  match bs with
  | [] => (none, 1)
  | b :: rest =>
    if b < 128 then (some b, 1)
    else if b < 194 then (none, 1)
    else if b < 224 then
      match rest with
      | b1 :: _ =>
        if utf8Cont b1 then (some ((b - 192) * 64 + (b1 - 128)), 2) else (none, 1)
      | [] => (none, 1)
    else if b < 240 then
      match rest with
      | b1 :: rest1 =>
        let b1ok :=
          if b = 224 then 160 ≤ b1 && b1 < 192
          else if b = 237 then 128 ≤ b1 && b1 < 160
          else utf8Cont b1
        if b1ok then
          match rest1 with
          | b2 :: _ =>
            if utf8Cont b2 then
              (some ((b - 224) * 4096 + (b1 - 128) * 64 + (b2 - 128)), 3)
            else (none, 2)
          | [] => (none, 2)
        else (none, 1)
      | [] => (none, 1)
    else if b < 245 then
      match rest with
      | b1 :: rest1 =>
        let b1ok :=
          if b = 240 then 144 ≤ b1 && b1 < 192
          else if b = 244 then 128 ≤ b1 && b1 < 144
          else utf8Cont b1
        if b1ok then
          match rest1 with
          | b2 :: rest2 =>
            if utf8Cont b2 then
              match rest2 with
              | b3 :: _ =>
                if utf8Cont b3 then
                  (some ((b - 240) * 262144 + (b1 - 128) * 4096 +
                    (b2 - 128) * 64 + (b3 - 128)), 4)
                else (none, 3)
              | [] => (none, 3)
            else (none, 2)
          | [] => (none, 2)
        else (none, 1)
      | [] => (none, 1)
    else (none, 1)

/-- Fuel-driven UTF-8 decoding loop.  `strictMode = true` models
`bytes.decode("utf-8")` (raise on invalid input, here `none`);
`strictMode = false` models `errors="replace"` (emit `U+FFFD` for each
maximal invalid subpart and continue). -/
def utf8DecodeGo (strictMode : Bool) : Nat → List Nat → Option (List Nat)
  | _, [] => some []
  | 0, _ :: _ => none
  | fuel + 1, bs@(_ :: _) =>
    let r := utf8Step bs
    let k := max r.2 1
    match r.1 with
    | some c => (utf8DecodeGo strictMode fuel (bs.drop k)).map (fun cs => c :: cs)
    | none =>
      if strictMode then none
      else (utf8DecodeGo strictMode fuel (bs.drop k)).map (fun cs => 65533 :: cs)

/-- `bline.decode("utf-8", errors=...)`: `strictMode = false` is the
`errors="replace"` call used by `refresh`. -/
def utf8Decode (strictMode : Bool) (bs : List Nat) : Option (List Nat) :=
  utf8DecodeGo strictMode bs.length bs

/-! ## JSON values and `json.loads` -/

/-- JSON values as produced by `json.loads`.  Numbers keep their source
token (their numeric value is never consumed by this program: every
downstream access is guarded by an `isinstance(..., str)` check or a
dict/list pattern). -/
inductive Json where
  | jnull : Json
  | jbool : Bool → Json
  | jnum : List Nat → Json
  | jstr : List Nat → Json
  | jarr : List Json → Json
  | jobj : List (List Nat × Json) → Json

/-- A parsed Python dict (the key/value pairs in source order; duplicate
keys are resolved by `dictGet`, last binding wins, as in `dict`). -/
abbrev PyDict := List (List Nat × Json)

/-- `d.get(k)` on a parsed JSON object: the value of the *last* binding
of `k` (later duplicate keys overwrite earlier ones when Python builds
the dict). -/
def dictGet (kvs : PyDict) (k : List Nat) : Option Json :=
  match kvs with
  | [] => none
  | (k0, v) :: rest =>
    match dictGet rest k with
    | some r => some r
    | none => if k0 = k then some v else none

/-- JSON inter-token whitespace (`json` module's `WHITESPACE`). -/
def jsonWs (c : Nat) : Bool :=
  c = 32 || c = 9 || c = 10 || c = 13

def skipJsonWs (cs : List Nat) : List Nat :=
  cs.dropWhile jsonWs

/-- Decimal digit? -/
def isDigit (c : Nat) : Bool :=
  48 ≤ c && c ≤ 57

/-- Value of a hex-digit code point, if any. -/
def hexVal (c : Nat) : Option Nat :=
  if 48 ≤ c && c ≤ 57 then some (c - 48)
  else if 97 ≤ c && c ≤ 102 then some (c - 87)
  else if 65 ≤ c && c ≤ 70 then some (c - 55)
  else none

/-- Parse exactly four hex digits (`\uXXXX`). -/
def parse4Hex (cs : List Nat) : Option (Nat × List Nat) :=
  match cs with
  | a :: b :: c :: d :: rest =>
    match hexVal a, hexVal b, hexVal c, hexVal d with
    | some va, some vb, some vc, some vd =>
      some (va * 4096 + vb * 256 + vc * 16 + vd, rest)
    | _, _, _, _ => none
  | _ => none

/-- Body of a JSON string after the opening quote, in strict mode:
raw control characters are rejected, the eight standard escapes and
`\uXXXX` (with surrogate-pair combination, lone surrogates kept) are
accepted.  Returns the decoded code points and the input after the
closing quote. -/
def parseJsonStringBody : Nat → List Nat → Option (List Nat × List Nat)
  | 0, _ => none
  | _, [] => none
  | fuel + 1, c :: rest =>
    if c = 34 then some ([], rest)
    else if c = 92 then
      match rest with
      | [] => none
      | e :: rest1 =>
        if e = 34 || e = 92 || e = 47 then
          (parseJsonStringBody fuel rest1).map (fun p => (e :: p.1, p.2))
        else if e = 98 then
          (parseJsonStringBody fuel rest1).map (fun p => (8 :: p.1, p.2))
        else if e = 102 then
          (parseJsonStringBody fuel rest1).map (fun p => (12 :: p.1, p.2))
        else if e = 110 then
          (parseJsonStringBody fuel rest1).map (fun p => (10 :: p.1, p.2))
        else if e = 114 then
          (parseJsonStringBody fuel rest1).map (fun p => (13 :: p.1, p.2))
        else if e = 116 then
          (parseJsonStringBody fuel rest1).map (fun p => (9 :: p.1, p.2))
        else if e = 117 then
          match parse4Hex rest1 with
          | none => none
          | some (u, rest2) =>
            if 55296 ≤ u && u ≤ 56319 then
              match rest2 with
              | 92 :: 117 :: rest3 =>
                match parse4Hex rest3 with
                | some (u2, rest4) =>
                  if 56320 ≤ u2 && u2 ≤ 57343 then
                    let cp := 65536 + (u - 55296) * 1024 + (u2 - 56320)
                    (parseJsonStringBody fuel rest4).map (fun p => (cp :: p.1, p.2))
                  else
                    (parseJsonStringBody fuel rest2).map (fun p => (u :: p.1, p.2))
                | none =>
                  (parseJsonStringBody fuel rest2).map (fun p => (u :: p.1, p.2))
              | _ =>
                (parseJsonStringBody fuel rest2).map (fun p => (u :: p.1, p.2))
            else
              (parseJsonStringBody fuel rest2).map (fun p => (u :: p.1, p.2))
        else none
    else if c < 32 then none
    else (parseJsonStringBody fuel rest).map (fun p => (c :: p.1, p.2))

/-- Longest match of the `json` number regular expression
`-?(0|[1-9][0-9]*)(\.[0-9]+)?([eE][-+]?[0-9]+)?` at the head of the
input.  Returns the matched token and the rest. -/
def parseJsonNumber (cs : List Nat) : Option (List Nat × List Nat) :=
  let (sign, cs1) :=
    match cs with
    | 45 :: rest => (([45] : List Nat), rest)
    | _ => (([] : List Nat), cs)
  match cs1 with
  | [] => none
  | d :: rest =>
    if ¬ isDigit d then none
    else
      let (intPart, cs2) :=
        if d = 48 then (([d] : List Nat), rest)
        else (d :: rest.takeWhile isDigit, rest.dropWhile isDigit)
      let (fracPart, cs3) :=
        match cs2 with
        | 46 :: f :: rest2 =>
          if isDigit f then
            (46 :: f :: rest2.takeWhile isDigit, rest2.dropWhile isDigit)
          else (([] : List Nat), cs2)
        | _ => (([] : List Nat), cs2)
      let (expPart, cs4) :=
        match cs3 with
        | e :: rest3 =>
          if e = 101 || e = 69 then
            let (signE, rest4) :=
              match rest3 with
              | s :: rest4 => if s = 43 || s = 45 then (([s] : List Nat), rest4)
                              else (([] : List Nat), rest3)
              | [] => (([] : List Nat), rest3)
            match rest4 with
            | g :: _ =>
              if isDigit g then
                (e :: (signE ++ rest4.takeWhile isDigit), rest4.dropWhile isDigit)
              else (([] : List Nat), cs3)
            | [] => (([] : List Nat), cs3)
          else (([] : List Nat), cs3)
        | [] => (([] : List Nat), cs3)
      some (sign ++ intPart ++ fracPart ++ expPart, cs4)

/-- Does `pre` prefix `cs`?  (Helper for the JSON literal tokens.) -/
def cpStartsWith (pre cs : List Nat) : Bool :=
  decide (cs.take pre.length = pre)

mutual

/-- One step of the recursive-descent JSON value scanner
(`json.scanner._scan_once`): dispatch on the first character; elements
and members skip whitespace exactly where the Python parser does.
Trailing commas and unquoted keys are syntax errors.  Fuel decreases at
every recursive call; `jsonLoads` supplies enough for any input. -/
def parseJsonValue : Nat → List Nat → Option (Json × List Nat)
  | 0, _ => none
  | _, [] => none
  | fuel + 1, c :: rest =>
    if c = 34 then
      (parseJsonStringBody (fuel + 1) rest).map (fun p => (Json.jstr p.1, p.2))
    else if c = 123 then
      parseJsonMembers fuel (skipJsonWs rest) []
    else if c = 91 then
      parseJsonElements fuel (skipJsonWs rest) []
    else if cpStartsWith (str2cp "null") (c :: rest) then
      some (Json.jnull, (c :: rest).drop 4)
    else if cpStartsWith (str2cp "true") (c :: rest) then
      some (Json.jbool true, (c :: rest).drop 4)
    else if cpStartsWith (str2cp "false") (c :: rest) then
      some (Json.jbool false, (c :: rest).drop 5)
    else
      match parseJsonNumber (c :: rest) with
      | some (tok, rest1) => some (Json.jnum tok, rest1)
      | none =>
        if cpStartsWith (str2cp "NaN") (c :: rest) then
          some (Json.jnum (str2cp "NaN"), (c :: rest).drop 3)
        else if cpStartsWith (str2cp "Infinity") (c :: rest) then
          some (Json.jnum (str2cp "Infinity"), (c :: rest).drop 8)
        else if cpStartsWith (str2cp "-Infinity") (c :: rest) then
          some (Json.jnum (str2cp "-Infinity"), (c :: rest).drop 9)
        else none

/-- Members of an object after `{` (whitespace already skipped);
`acc` holds the pairs parsed so far in source order. -/
def parseJsonMembers : Nat → List Nat → PyDict → Option (Json × List Nat)
  | 0, _, _ => none
  | _, [], _ => none
  | fuel + 1, c :: rest, acc =>
    if c = 125 && acc.isEmpty then some (Json.jobj [], rest)
    else if c ≠ 34 then none
    else
      match parseJsonStringBody (fuel + 1) rest with
      | none => none
      | some (key, rest1) =>
        match skipJsonWs rest1 with
        | 58 :: rest2 =>
          match parseJsonValue fuel (skipJsonWs rest2) with
          | none => none
          | some (v, rest3) =>
            match skipJsonWs rest3 with
            | 44 :: rest4 => parseJsonMembers fuel (skipJsonWs rest4) (acc ++ [(key, v)])
            | 125 :: rest4 => some (Json.jobj (acc ++ [(key, v)]), rest4)
            | _ => none
        | _ => none

/-- Elements of an array after `[` (whitespace already skipped). -/
def parseJsonElements : Nat → List Nat → List Json → Option (Json × List Nat)
  | 0, _, _ => none
  | _, [], _ => none
  | fuel + 1, c :: rest, acc =>
    if c = 93 && acc.isEmpty then some (Json.jarr [], rest)
    else
      match parseJsonValue fuel (c :: rest) with
      | none => none
      | some (v, rest1) =>
        match skipJsonWs rest1 with
        | 44 :: rest2 => parseJsonElements fuel (skipJsonWs rest2) (acc ++ [v])
        | 93 :: rest2 => some (Json.jarr (acc ++ [v]), rest2)
        | _ => none

end

/-- `json.loads(line)`: skip leading whitespace, scan one value, then
require only whitespace to the end of the input.  The fuel bound is
generous: every unit of fuel spent corresponds to consuming at least
one input character across at most two nested calls. -/
def jsonLoads (cs : List Nat) : Option Json :=
  match parseJsonValue (2 * cs.length + 2) (skipJsonWs cs) with
  | none => none
  | some (v, rest) => if skipJsonWs rest = [] then some v else none

/-! ## `util.parse_ts`: ISO timestamps as exact rationals

Timestamps are modelled as rational epoch seconds.  `fromisoformat`
values without an offset (naive datetimes) are taken at face value, the
same number line used for stored `TIMESTAMP` columns, so `LEAST` /
`GREATEST` comparisons are chronological as in the store. -/

/-- Exactly `n` decimal digits, as a number, plus the rest. -/
def parseDigitsN (n : Nat) (cs : List Nat) : Option (Nat × List Nat) :=
  let ds := cs.take n
  if ds.length = n && ds.all isDigit then
    some (ds.foldl (fun a c => a * 10 + (c - 48)) 0, cs.drop n)
  else none

def isLeapYear (y : Nat) : Bool :=
  y % 4 = 0 && (y % 100 ≠ 0 || y % 400 = 0)

def daysInMonth (y m : Nat) : Nat :=
  if m = 2 then (if isLeapYear y then 29 else 28)
  else if m = 4 || m = 6 || m = 9 || m = 11 then 30
  else 31

/-- Days from 1970-01-01 to the civil date `y-m-d` (standard
days-from-civil formula; all intermediate divisions are on
non-negative values). -/
def daysFromCivil (y m d : Nat) : Int :=
  let y' : Int := if m ≤ 2 then (y : Int) - 1 else (y : Int)
  let era : Int := (if 0 ≤ y' then y' else y' - 399) / 400
  let yoe : Int := y' - era * 400
  let m' : Int := if m > 2 then (m : Int) - 3 else (m : Int) + 9
  let doy : Int := (153 * m' + 2) / 5 + (d : Int) - 1
  let doe : Int := yoe * 365 + yoe / 4 - yoe / 100 + doy
  era * 146097 + doe - 719468

/-- `HH:MM[:SS[.frac]]` with a 1–6 digit fraction, returning hours,
minutes, seconds, microseconds and the rest of the input. -/
def parseHMS (cs : List Nat) : Option ((Nat × Nat × Nat × Nat) × List Nat) :=
  match parseDigitsN 2 cs with
  | none => none
  | some (h, cs1) =>
    match cs1 with
    | 58 :: cs2 =>
      match parseDigitsN 2 cs2 with
      | none => none
      | some (mi, cs3) =>
        match cs3 with
        | 58 :: cs4 =>
          match parseDigitsN 2 cs4 with
          | none => none
          | some (s, cs5) =>
            match cs5 with
            | 46 :: cs6 =>
              let ds := cs6.takeWhile isDigit
              if 1 ≤ ds.length && ds.length ≤ 6 then
                let v := ds.foldl (fun a c => a * 10 + (c - 48)) 0
                some ((h, mi, s, v * 10 ^ (6 - ds.length)), cs6.drop ds.length)
              else none
            | _ => some ((h, mi, s, 0), cs5)
        | _ => some ((h, mi, 0, 0), cs3)
    | _ => none

/-- `datetime.fromisoformat` on the extended format
`YYYY-MM-DD[<sep>HH:MM[:SS[.frac]][±HH:MM[:SS]]]` (the shapes produced
by the log writer after `parse_ts` rewrites a trailing `Z` to
`+00:00`), with calendar and field-range validation.  The result is
epoch seconds as a rational. -/
def fromIsoFormat (s : List Nat) : Option Rat :=
  match parseDigitsN 4 s with
  | none => none
  | some (y, s1) =>
    match s1 with
    | 45 :: s2 =>
      match parseDigitsN 2 s2 with
      | none => none
      | some (mo, s3) =>
        match s3 with
        | 45 :: s4 =>
          match parseDigitsN 2 s4 with
          | none => none
          | some (d, s5) =>
            if 1 ≤ y && 1 ≤ mo && mo ≤ 12 && 1 ≤ d && d ≤ daysInMonth y mo then
              let dateSec : Rat := (daysFromCivil y mo d : Rat) * 86400
              match s5 with
              | [] => some dateSec
              | sep :: s6 =>
                if sep = 84 || sep = 32 then
                  match parseHMS s6 with
                  | none => none
                  | some ((h, mi, sec, micro), s7) =>
                    if h ≤ 23 && mi ≤ 59 && sec ≤ 59 then
                      let tod : Rat :=
                        (h : Rat) * 3600 + (mi : Rat) * 60 + (sec : Rat) +
                          (micro : Rat) / 1000000
                      match s7 with
                      | [] => some (dateSec + tod)
                      | signC :: s8 =>
                        if signC = 43 || signC = 45 then
                          match parseHMS s8 with
                          | none => none
                          | some ((oh, om, os, omicro), s9) =>
                            if s9 = [] && oh ≤ 23 && om ≤ 59 && os ≤ 59 &&
                                omicro = 0 then
                              let off : Rat :=
                                (oh : Rat) * 3600 + (om : Rat) * 60 + (os : Rat)
                              let off := if signC = 45 then -off else off
                              some (dateSec + tod - off)
                            else none
                        else none
                    else none
                else none
            else none
        | _ => none
    | _ => none

/-- `util.parse_ts`: falsy input gives `None`; otherwise strip, rewrite
a trailing `Z` to `+00:00`, and try `fromisoformat`, with failures
mapped to `None`. -/
def parse_ts (ts : List Nat) : Option Rat :=
  if ts.isEmpty then none
  else
    let s := pyStrip ts
    let s := if s.getLast? = some 90 then s.dropLast ++ str2cp "+00:00" else s
    fromIsoFormat s

/-- `parse_ts` applied to a value read out of a parsed JSON dict.
Missing keys and JSON `null` are falsy and give `None`; strings are
parsed.  (A non-string truthy value would raise inside `parse_ts`; no
claim below exercises that branch and it is modelled as `None`.) -/
def parseTsJ (v : Option Json) : Option Rat :=
  match v with
  | some (Json.jstr s) => parse_ts s
  | _ => none

/-! ## `util.json_dumps_pretty` (`json.dumps(obj, indent=2, sort_keys=True)`) -/

/-- Decimal digits of `n` as code points. -/
def natToDecimal (n : Nat) : List Nat :=
  str2cp (toString n)

/-- Four lowercase hex digits. -/
def hex4 (n : Nat) : List Nat :=
  let dig := fun (k : Nat) => if k < 10 then 48 + k else 87 + k
  [dig (n / 4096 % 16), dig (n / 256 % 16), dig (n / 16 % 16), dig (n % 16)]

/-- `json.dumps` ASCII escaping of one code point: the short escapes,
`\uXXXX` for other characters outside `0x20..0x7E` (surrogate pairs
above `0xFFFF`), pass-through otherwise. -/
def jsonEscapeChar (c : Nat) : List Nat :=
  if c = 34 then [92, 34]
  else if c = 92 then [92, 92]
  else if c = 8 then [92, 98]
  else if c = 12 then [92, 102]
  else if c = 10 then [92, 110]
  else if c = 13 then [92, 114]
  else if c = 9 then [92, 116]
  else if 32 ≤ c && c ≤ 126 then [c]
  else if c ≤ 65535 then 92 :: 117 :: hex4 c
  else
    let u := c - 65536
    (92 :: 117 :: hex4 (55296 + u / 1024)) ++ (92 :: 117 :: hex4 (56320 + u % 1024))

/-- A dumped JSON string literal. -/
def jsonDumpStr (s : List Nat) : List Nat :=
  34 :: (s.flatMap jsonEscapeChar) ++ [34]

/-- Strict lexicographic order on code-point strings (Python `str <`). -/
def cpLt : List Nat → List Nat → Bool
  | [], [] => false
  | [], _ :: _ => true
  | _ :: _, [] => false
  | a :: as, b :: bs => if a < b then true else if b < a then false else cpLt as bs

/-- Keep, for each key, its last binding (the value visible in the
Python dict), one entry per key. -/
def dedupLastKey (kvs : PyDict) : PyDict :=
  kvs.reverse.foldl
    (fun acc p => if acc.any (fun q => q.1 = p.1) then acc else acc ++ [p]) []

/-- One insertion step for sorting dict items by key. -/
def insertByKeyCp (p : List Nat × Json) : PyDict → PyDict
  | [] => [p]
  | q :: rest =>
    if cpLt p.1 q.1 then p :: q :: rest else q :: insertByKeyCp p rest

/-- Insertion sort of dict items by key (`sort_keys=True`). -/
def sortByKeyCp (kvs : PyDict) : PyDict :=
  kvs.foldr (fun p acc => insertByKeyCp p acc) []

/-- `n` spaces. -/
def spaces (n : Nat) : List Nat :=
  List.replicate n 32

mutual

/-- A computable size of a JSON value, an upper bound on its nesting
depth (fuel for `dumpsGo`). -/
def jsonSize : Json → Nat
  | Json.jnull => 1
  | Json.jbool _ => 1
  | Json.jnum _ => 1
  | Json.jstr _ => 1
  | Json.jarr xs => jsonSizeList xs + 1
  | Json.jobj kvs => jsonSizeKvs kvs + 1

def jsonSizeList : List Json → Nat
  | [] => 0
  | x :: xs => jsonSize x + jsonSizeList xs

def jsonSizeKvs : List (List Nat × Json) → Nat
  | [] => 0
  | p :: ps => jsonSize p.2 + jsonSizeKvs ps

end

/-- Fuel-driven rendering of `json.dumps(obj, ensure_ascii=True,
indent=2, sort_keys=True)`.  Number tokens are emitted verbatim (the
model keeps their source text; Python would reformat floats — no claim
inspects dumped numbers).  `sizeOf` supplies ample fuel. -/
def dumpsGo : Nat → Nat → Json → List Nat
  | 0, _, _ => []
  | fuel + 1, ind, j =>
    match j with
    | Json.jnull => str2cp "null"
    | Json.jbool true => str2cp "true"
    | Json.jbool false => str2cp "false"
    | Json.jnum tok => tok
    | Json.jstr s => jsonDumpStr s
    | Json.jarr [] => str2cp "[]"
    | Json.jarr (x :: xs) =>
      let items := (x :: xs).map (fun v => spaces (ind + 2) ++ dumpsGo fuel (ind + 2) v)
      (91 :: 10 :: List.intercalate [44, 10] items) ++ (10 :: spaces ind) ++ [93]
    | Json.jobj kvs =>
      match sortByKeyCp (dedupLastKey kvs) with
      | [] => str2cp "\x7b\x7d"
      | p :: ps =>
        let items := (p :: ps).map (fun q =>
          spaces (ind + 2) ++ jsonDumpStr q.1 ++ [58, 32] ++ dumpsGo fuel (ind + 2) q.2)
        (123 :: 10 :: List.intercalate [44, 10] items) ++ (10 :: spaces ind) ++ [125]

/-- `util.json_dumps_pretty`. -/
def json_dumps_pretty (j : Json) : List Nat :=
  dumpsGo (jsonSize j) 0 j

/-! ## `extract.py` -/

/-- One extracted text document (`util.ExtractedDoc`). -/
structure ExtractedDoc where
  doc_id : String
  session_id : Option (List Nat)
  file_path : String
  line_no : Nat
  event_ts : Option Rat
  event_type : Option Json
  inner_type : Option Json
  role : Option (List Nat)
  kind : String
  text : List Nat

/-- Python `value == "literal"` where `value` came out of a dict:
true exactly when it is that string. -/
def jsonIsStr (j : Option Json) (s : String) : Bool :=
  match j with
  | some (Json.jstr t) => t = str2cp s
  | _ => false

/-- `value if isinstance(value, str) else None`. -/
def jsonAsStr (j : Option Json) : Option (List Nat) :=
  match j with
  | some (Json.jstr t) => some t
  | _ => none

/-- `extract._iter_message_texts` (and the textually identical
`_iter_summary_texts`): the non-empty `text` fields of the dict items
of a list. -/
def iter_message_texts (content : Option Json) : List (List Nat) :=
  match content with
  | some (Json.jarr items) =>
    items.filterMap (fun it =>
      match it with
      | Json.jobj kvs =>
        match dictGet kvs (str2cp "text") with
        | some (Json.jstr t) => if (pyStrip t).isEmpty then none else some t
        | _ => none
      | _ => none)
  | _ => []

/-- The deterministic document id `f"{file_path}:{line_no}:{seg_idx}"`. -/
def mkDocId (file_path : String) (line_no seg_idx : Nat) : String :=
  file_path ++ ":" ++ toString line_no ++ ":" ++ toString seg_idx

/-- `add_doc` in `extract_docs_from_event`: drop whitespace-only text,
otherwise build the document. -/
def addDoc? (file_path : String) (line_no : Nat) (session_id_hint : Option (List Nat))
    (event_ts : Option Rat) (event_type : Option Json) (seg_idx : Nat)
    (role : Option (List Nat)) (kind : String) (inner_type : Option Json)
    (text : List Nat) : Option ExtractedDoc :=
  if (pyStrip text).isEmpty then none
  else some
    { doc_id := mkDocId file_path line_no seg_idx
      session_id := session_id_hint
      file_path := file_path
      line_no := line_no
      event_ts := event_ts
      event_type := event_type
      inner_type := inner_type
      role := role
      kind := kind
      text := text }

/-- Number a list of texts with consecutive segment indices starting at
`start + 1`. -/
def numberFrom (start : Nat) (ts : List (List Nat)) : List (Nat × List Nat) :=
  (List.range ts.length).zip ts |>.map (fun p => (start + p.1 + 1, p.2))

/-- `extract.extract_docs_from_event`: convert one parsed JSONL event
(dict) into its extracted documents. -/
def extract_docs_from_event (event : PyDict) (file_path : String) (line_no : Nat)
    (session_id_hint : Option (List Nat)) (include_assistant include_internal : Bool) :
    List ExtractedDoc :=
  let event_type := dictGet event (str2cp "type")
  let event_ts := parseTsJ (dictGet event (str2cp "timestamp"))
  let payload := dictGet event (str2cp "payload")
  match payload with
  | some (Json.jobj pkvs) =>
    if jsonIsStr event_type "response_item" then
      let inner_type := dictGet pkvs (str2cp "type")
      if jsonIsStr inner_type "message" then
        let role := dictGet pkvs (str2cp "role")
        if jsonIsStr role "assistant" && !include_assistant then []
        else
          let roleS := jsonAsStr role
          let contentTexts := iter_message_texts (dictGet pkvs (str2cp "content"))
          let summaryTexts := iter_message_texts (dictGet pkvs (str2cp "summary"))
          let contentDocs := (numberFrom 0 contentTexts).filterMap (fun p =>
            addDoc? file_path line_no session_id_hint event_ts event_type p.1
              roleS "message_content" inner_type p.2)
          let summaryDocs :=
            (numberFrom contentTexts.length summaryTexts).filterMap (fun p =>
              addDoc? file_path line_no session_id_hint event_ts event_type p.1
                roleS "message_summary" inner_type p.2)
          contentDocs ++ summaryDocs
      else []
    else if jsonIsStr event_type "event_msg" then
      let inner_type := dictGet pkvs (str2cp "type")
      if jsonIsStr inner_type "user_message" || jsonIsStr inner_type "agent_message" then
        []
      else if jsonIsStr inner_type "agent_reasoning" then
        if !include_internal then []
        else
          match dictGet pkvs (str2cp "text") with
          | some (Json.jstr t) =>
            (addDoc? file_path line_no session_id_hint event_ts event_type 1
              none "agent_reasoning" inner_type t).toList
          | _ => []
      else if jsonIsStr inner_type "item_completed" then
        if !include_internal then []
        else
          match dictGet pkvs (str2cp "item") with
          | some (Json.jobj ikvs) =>
            match dictGet ikvs (str2cp "text") with
            | some (Json.jstr t) =>
              (addDoc? file_path line_no session_id_hint event_ts event_type 1
                none "item_completed" inner_type t).toList
            | _ => []
          | _ => []
      else if jsonIsStr inner_type "exited_review_mode" then
        if !include_internal then []
        else
          match dictGet pkvs (str2cp "review_output") with
          | none => []
          | some Json.jnull => []
          | some ro =>
            (addDoc? file_path line_no session_id_hint event_ts event_type 1
              none "review_output" inner_type (json_dumps_pretty ro)).toList
      else []
    else []
  | _ => []

/-- `extract.extract_session_meta`: the payload dict of a
`session_meta` event carrying a non-empty string id. -/
def extract_session_meta (event : PyDict) : Option PyDict :=
  if jsonIsStr (dictGet event (str2cp "type")) "session_meta" then
    match dictGet event (str2cp "payload") with
    | some (Json.jobj pkvs) =>
      match dictGet pkvs (str2cp "id") with
      | some (Json.jstr sid) => if sid.isEmpty then none else some pkvs
      | _ => none
    | _ => none
  else none

/-! ## The tail pass of `refresh` over one file

The `f.readline()` loop reads, from the seek position to end of file,
exactly the newline-terminated chunks of the remaining bytes (the last
chunk possibly unterminated); `f.tell()` after a `readline` is the
previous offset plus the chunk's byte length. -/

/-- Split bytes into `readline` chunks: every chunk ends with `0x0A`
except possibly the last, and their concatenation is the input. -/
def splitLinesKeepNl : List Nat → List (List Nat)
  | [] => []
  | b :: rest =>
    if b = 10 then [b] :: splitLinesKeepNl rest
    else
      match splitLinesKeepNl rest with
      | [] => [[b]]
      | l :: ls => (b :: l) :: ls

/-- The mutable state of the per-file loop in `refresh`.
`decode_failed` is a ghost flag marking the `except` branch around
`bline.decode(...)` (bail on decode errors); it is never set, see the
safety theorem below. -/
structure TailState where
  offset : Nat
  line_no : Nat
  last_good_offset : Nat
  last_good_line_no : Nat
  lines_read : Nat
  lines_ingested : Nat
  events : List (Nat × PyDict)
  decode_failed : Bool

/-- The per-line loop of `refresh` (`while True: bline = f.readline()`):
count the line; decode with `errors="replace"` (the surrounding
`except` would stop the file, keeping the cursor at the last good
line); advance line number and offset; blank lines advance the good
cursor and continue; a JSON parse failure stops the file without
advancing the good cursor; non-dict values advance and continue; dict
events are recorded (in order, with their line number) and advance. -/
def goLines : List (List Nat) → TailState → TailState
  | [], s => s
  | bline :: rest, s =>
    let s := { s with lines_read := s.lines_read + 1 }
    match utf8Decode false bline with
    | none => { s with decode_failed := true }
    | some decoded =>
      let line := pyStrip decoded
      let line_no := s.line_no + 1
      let offset := s.offset + bline.length
      if line.isEmpty then
        goLines rest { s with
          offset := offset
          line_no := line_no
          last_good_offset := offset
          last_good_line_no := line_no }
      else
        match jsonLoads line with
        | none => { s with offset := offset, line_no := line_no }
        | some (Json.jobj kvs) =>
          goLines rest { s with
            offset := offset
            line_no := line_no
            last_good_offset := offset
            last_good_line_no := line_no
            lines_ingested := s.lines_ingested + 1
            events := s.events ++ [(line_no, kvs)] }
        | some _ =>
          goLines rest { s with
            offset := offset
            line_no := line_no
            last_good_offset := offset
            last_good_line_no := line_no }

/-- Loop state at entry: cursors at the resume position, counters zero. -/
def initTail (offset line_no : Nat) : TailState :=
  { offset := offset, line_no := line_no, last_good_offset := offset,
    last_good_line_no := line_no, lines_read := 0, lines_ingested := 0,
    events := [], decode_failed := false }

/-- One tail pass over a file: seek to `offset` and run the line loop
over the remaining bytes. -/
def tailPass (content : List Nat) (offset line_no : Nat) : TailState :=
  goLines (splitLinesKeepNl (content.drop offset)) (initTail offset line_no)

/-! ## The store (`db.py` tables) and `ingest.py` -/

/-- First-match association-list lookup (primary-key tables hold one
row per key). -/
def alookup {α β : Type} [DecidableEq α] (k : α) : List (α × β) → Option β
  | [] => none
  | (k0, v) :: rest => if k0 = k then some v else alookup k rest

/-- `INSERT ... ON CONFLICT DO UPDATE`: replace the keyed row in place,
or append a new one. -/
def aupsert {α β : Type} [DecidableEq α] (k : α) (v : β) : List (α × β) → List (α × β)
  | [] => [(k, v)]
  | (k0, v0) :: rest => if k0 = k then (k0, v) :: rest else (k0, v0) :: aupsert k v rest

/-- SQL `COALESCE` of two nullable values. -/
def coalesce {α : Type} (a b : Option α) : Option α :=
  match a with
  | some x => some x
  | none => b

/-- SQL `LEAST` (DuckDB/PostgreSQL behaviour: NULL arguments are
ignored; NULL only when all arguments are NULL). -/
def leastSql (a b : Option Rat) : Option Rat :=
  match a, b with
  | none, x => x
  | x, none => x
  | some x, some y => some (min x y)

/-- SQL `GREATEST` (NULL arguments ignored). -/
def greatestSql (a b : Option Rat) : Option Rat :=
  match a, b with
  | none, x => x
  | x, none => x
  | some x, some y => some (max x y)

/-- A `sessions` row. -/
structure SessionRow where
  first_ts : Option Rat
  last_ts : Option Rat
  cwd : Option (List Nat)
  originator : Option (List Nat)
  cli_version : Option (List Nat)
  source : Option (List Nat)
  model_provider : Option (List Nat)
  instructions : Option (List Nat)
deriving DecidableEq

abbrev SessionsTable := List (List Nat × SessionRow)

/-- `ingest._upsert_session`: no-op without a non-empty string id;
otherwise insert, or merge with `LEAST`/`GREATEST` on the timestamps
and `COALESCE(excluded.field, sessions.field)` on the other fields.
Returns the table and the 0/1 count. -/
def _upsert_session (tbl : SessionsTable) (meta : PyDict) (event_ts_str : Option Json) :
    SessionsTable × Nat :=
  match dictGet meta (str2cp "id") with
  | some (Json.jstr sid) =>
    if sid.isEmpty then (tbl, 0)
    else
      let ts := coalesce (parseTsJ (dictGet meta (str2cp "timestamp"))) (parseTsJ event_ts_str)
      let cwd := jsonAsStr (dictGet meta (str2cp "cwd"))
      let originator := jsonAsStr (dictGet meta (str2cp "originator"))
      let cli_version := jsonAsStr (dictGet meta (str2cp "cli_version"))
      let source := jsonAsStr (dictGet meta (str2cp "source"))
      let model_provider := jsonAsStr (dictGet meta (str2cp "model_provider"))
      let instructions := jsonAsStr (dictGet meta (str2cp "instructions"))
      match alookup sid tbl with
      | none =>
        (tbl ++ [(sid,
          { first_ts := ts, last_ts := ts, cwd := cwd, originator := originator,
            cli_version := cli_version, source := source,
            model_provider := model_provider, instructions := instructions })], 1)
      | some e =>
        let e' : SessionRow :=
          { first_ts := leastSql (coalesce e.first_ts ts) ts
            last_ts := greatestSql (coalesce e.last_ts ts) ts
            cwd := coalesce cwd e.cwd
            originator := coalesce originator e.originator
            cli_version := coalesce cli_version e.cli_version
            source := coalesce source e.source
            model_provider := coalesce model_provider e.model_provider
            instructions := coalesce instructions e.instructions }
        (aupsert sid e' tbl, 1)
  | _ => (tbl, 0)

/-- A `docs` row. -/
structure DocRow where
  doc_id : String
  session_id : Option (List Nat)
  file_path : String
  line_no : Nat
  event_ts : Option Rat
  event_type : Option Json
  inner_type : Option Json
  role : Option (List Nat)
  kind : String
  text : List Nat
  text_len : Nat

/-- The row inserted for an extracted document (`text_len = len(text)`). -/
def docFromExtracted (d : ExtractedDoc) : DocRow :=
  { doc_id := d.doc_id, session_id := d.session_id, file_path := d.file_path,
    line_no := d.line_no, event_ts := d.event_ts, event_type := d.event_type,
    inner_type := d.inner_type, role := d.role, kind := d.kind, text := d.text,
    text_len := d.text.length }

/-- `INSERT OR IGNORE` on the `doc_id` primary key. -/
def insertDocIgnore (docs : List DocRow) (d : DocRow) : List DocRow :=
  if docs.any (fun x => x.doc_id == d.doc_id) then docs else docs ++ [d]

/-- `ingest._insert_docs`: insert-or-ignore each document; the returned
count includes ignored duplicates (the source counts attempts). -/
def _insert_docs (docs : List DocRow) (ds : List ExtractedDoc) : List DocRow × Nat :=
  ds.foldl (fun acc d => (insertDocIgnore acc.1 (docFromExtracted d), acc.2 + 1)) (docs, 0)

/-- `ingest._delete_file_docs`. -/
def _delete_file_docs (docs : List DocRow) (file_path : String) : List DocRow :=
  docs.filter (fun d => d.file_path != file_path)

/-- A `session_files` cursor row.  `mtime` (display) and `mtime_epoch`
are both taken from the same `st_mtime`; `last_seen_at` is the run's
wall clock, modelled as an abstract tick. -/
structure FileRow where
  session_id : Option (List Nat)
  size : Nat
  mtime : Rat
  mtime_epoch : Option Rat
  last_offset : Nat
  last_line_no : Nat
  last_seen_at : Nat
deriving DecidableEq

abbrev Settings := List (String × String)

/-- `db.set_setting` (upsert on the settings key). -/
def set_setting (st : Settings) (k v : String) : Settings :=
  aupsert k v st

/-- `db.get_setting`. -/
def get_setting (st : Settings) (k : String) : Option String :=
  alookup k st

/-- `db.is_fts_available`. -/
def is_fts_available (st : Settings) : Bool :=
  get_setting st "fts_available" == some "1"

/-- The whole store. -/
structure DB where
  settings : Settings
  session_files : List (String × FileRow)
  sessions : SessionsTable
  docs : List DocRow

/-- `ingest.RefreshStats`. -/
structure RefreshStats where
  files_scanned : Nat
  files_updated : Nat
  lines_read : Nat
  lines_ingested : Nat
  docs_inserted : Nat
  sessions_upserted : Nat
  fts_available : Bool
  fts_reindexed : Bool
deriving DecidableEq

/-- The epsilon test of `refresh` (`abs(mtime_epoch - stored) < 0.0005`),
written on the numerators and denominators so it evaluates without
rational normalisation; `mtimeClose_iff` below shows it is exactly
`|a - b| < 1/2000`. -/
def mtimeClose (a b : Rat) : Bool :=
  decide (2000 * (a.num * (b.den : Int) - b.num * (a.den : Int)).natAbs
    < a.den * b.den)

/-- One source file as seen by `stat` and `open`: its path, current
bytes and modification time. -/
structure FileState where
  path : String
  content : List Nat
  mtime_epoch : Rat

/-- The per-event work inside the line loop, in file order: merge
session metadata (remembering a discovered session id as the hint for
subsequent records), then extract documents with that hint.  Returns
the updated sessions table, the documents to insert (in order), the
upsert count and the final hint. -/
def processEvents (incA incI : Bool) (file_path : String) :
    List (Nat × PyDict) → Option (List Nat) → SessionsTable →
    SessionsTable × List ExtractedDoc × Nat × Option (List Nat)
  | [], hint, sessions => (sessions, [], 0, hint)
  | (ln, ev) :: rest, hint, sessions =>
    let step :=
      match extract_session_meta ev with
      | some meta =>
        let r := _upsert_session sessions meta (dictGet ev (str2cp "timestamp"))
        let hint' :=
          match dictGet meta (str2cp "id") with
          | some (Json.jstr sid) => if sid.isEmpty then hint else some sid
          | _ => hint
        (r.1, r.2, hint')
      | none => (sessions, 0, hint)
    let docsHere := extract_docs_from_event ev file_path ln step.2.2 incA incI
    let r := processEvents incA incI file_path rest step.2.2 step.1
    (r.1, docsHere ++ r.2.1, step.2.1 + r.2.2.1, r.2.2.2)

/-- The append/changed path of one file: run the tail pass from the
resume cursor, process its events, insert the documents, and upsert the
cursor row at the last known good position (`session_id` coalesced new
over stored). -/
def ingestTail (incA incI : Bool) (now : Nat) (db : DB) (stats : RefreshStats)
    (f : FileState) (last_offset last_line_no : Nat) (known : Option (List Nat)) :
    DB × RefreshStats :=
  let ts := tailPass f.content last_offset last_line_no
  let pe := processEvents incA incI f.path ts.events known db.sessions
  let ins := _insert_docs db.docs pe.2.1
  let oldSid : Option (List Nat) :=
    match alookup f.path db.session_files with
    | some r => r.session_id
    | none => none
  let newRow : FileRow :=
    { session_id := coalesce pe.2.2.2 oldSid
      size := f.content.length
      mtime := f.mtime_epoch
      mtime_epoch := some f.mtime_epoch
      last_offset := ts.last_good_offset
      last_line_no := ts.last_good_line_no
      last_seen_at := now }
  ({ db with
      sessions := pe.1
      docs := ins.1
      session_files := aupsert f.path newRow db.session_files },
   { stats with
      files_updated := stats.files_updated + 1
      lines_read := stats.lines_read + ts.lines_read
      lines_ingested := stats.lines_ingested + ts.lines_ingested
      docs_inserted := stats.docs_inserted + ins.2
      sessions_upserted := stats.sessions_upserted + pe.2.2.1 })

/-- The per-file body of `refresh`: truncation check (delete the file's
documents and reset the cursor), then the unchanged check (size equal
and `mtime_epoch` within `0.0005`: bump `last_seen_at` only), else
ingest from the resume cursor. -/
def processFile (incA incI : Bool) (now : Nat) (db : DB) (stats : RefreshStats)
    (f : FileState) : DB × RefreshStats :=
  let size := f.content.length
  match alookup f.path db.session_files with
  | none => ingestTail incA incI now db stats f 0 0 none
  | some row =>
    let db1 :=
      if size < row.last_offset then
        { db with docs := _delete_file_docs db.docs f.path }
      else db
    let last_offset := if size < row.last_offset then 0 else row.last_offset
    let last_line_no := if size < row.last_offset then 0 else row.last_line_no
    let same_size : Bool := size == row.size
    let same_mtime : Bool :=
      match row.mtime_epoch with
      | some q => mtimeClose q f.mtime_epoch
      | none => false
    if same_size && same_mtime then
      ({ db1 with
          session_files :=
            aupsert f.path { row with last_seen_at := now } db1.session_files },
       stats)
    else
      ingestTail incA incI now db1 stats f last_offset last_line_no row.session_id

/-- The file loop inside the per-run transaction.  `fault k = true`
models an unexpected exception raised while processing the `k`-th file;
`none` is the raised exception reaching the `except` handler. -/
def refreshTxBody (fault : Nat → Bool) (incA incI : Bool) (now : Nat) :
    List FileState → Nat → DB → RefreshStats → Option (DB × RefreshStats)
  | [], _, db, stats => some (db, stats)
  | f :: rest, k, db, stats =>
    if fault k then none
    else
      let r := processFile incA incI now db stats f
      refreshTxBody fault incA incI now rest (k + 1) r.1 r.2

/-- The state of the store at `BEGIN TRANSACTION`: after the optional
full reset (deletes issued before the transaction) and after
`try_enable_fts` has recorded availability. -/
def preTxDb (full ftsEnableOk : Bool) (db0 : DB) : DB :=
  let db1 :=
    if full then
      { db0 with
        docs := []
        sessions := []
        session_files := []
        settings := set_setting (set_setting db0.settings "fts_available" "0")
          "fts_index_ready" "0" }
    else db0
  { db1 with
    settings :=
      set_setting db1.settings "fts_available" (if ftsEnableOk then "1" else "0") }

/-- `ingest.refresh`: full reset (outside the transaction) when asked,
record FTS availability, run the file loop inside one transaction
(rolling back to the `BEGIN` state and propagating on any fault), then
the post-commit index rebuild bookkeeping.  `ftsEnableOk` is the
outcome of loading the FTS extension, `rebuildOk` the outcome of the
index rebuild.  The second component is `none` exactly when the run
raised. -/
def refreshRun (fault : Nat → Bool) (ftsEnableOk rebuildOk : Bool)
    (incA incI full reindex : Bool) (now : Nat) (files : List FileState)
    (db0 : DB) : DB × Option RefreshStats :=
  let db2 := preTxDb full ftsEnableOk db0
  let stats0 : RefreshStats :=
    { files_scanned := files.length, files_updated := 0, lines_read := 0,
      lines_ingested := 0, docs_inserted := 0, sessions_upserted := 0,
      fts_available := ftsEnableOk, fts_reindexed := false }
  match refreshTxBody fault incA incI now files 0 db2 stats0 with
  | none => (db2, none)
  | some (db3, stats) =>
    if reindex && decide (0 < stats.docs_inserted) && stats.fts_available then
      if rebuildOk then
        ({ db3 with
            settings :=
              set_setting (set_setting db3.settings "fts_reindexed_at" (toString now))
                "fts_index_ready" "1" },
         some { stats with fts_reindexed := true })
      else (db3, some { stats with fts_reindexed := false })
    else if 0 < stats.docs_inserted then
      ({ db3 with
          settings := set_setting db3.settings "fts_index_ready" "0" },
       some stats)
    else (db3, some stats)

/-! ## `search.py` -/

/-- Python `str.split()` (no argument): maximal runs of
non-whitespace, fuel-driven (`length` is ample fuel). -/
def pySplitGo : Nat → List Nat → List (List Nat)
  | 0, _ => []
  | fuel + 1, cs =>
    let cs1 := cs.dropWhile isPySpace
    match cs1 with
    | [] => []
    | _ =>
      let w := cs1.takeWhile (fun c => !isPySpace c)
      w :: pySplitGo fuel (cs1.drop w.length)

def pySplit (cs : List Nat) : List (List Nat) :=
  pySplitGo cs.length cs

/-- `" ".join(text.split())`: collapse whitespace runs to single
spaces, trimming the ends. -/
def collapseWs (cs : List Nat) : List Nat :=
  List.intercalate [32] (pySplit cs)

/-- `haystack.find(needle)`: first index of an occurrence (`none` for
Python's `-1`). -/
def strFind (needle : List Nat) : List Nat → Option Nat
  | [] => if needle.isEmpty then some 0 else none
  | c :: rest =>
    if needle.isPrefixOf (c :: rest) then some 0
    else (strFind needle rest).map (fun i => i + 1)

/-- `search._make_snippet`: collapse whitespace; short text is returned
as-is; otherwise center a `max_len` window on the earliest
case-insensitive occurrence among the full query and its tokens of
length ≥ 2, with ellipsis markers, falling back to plain truncation
when nothing matches. -/
def _make_snippet (text query : List Nat) (max_len : Nat := 180) : List Nat :=
  let t := collapseWs text
  if t.length ≤ max_len then t
  else
    let q_raw := pyStrip query
    if q_raw.isEmpty then t.take (max_len - 1) ++ [8230]
    else
      let needles := q_raw :: (pySplit q_raw).filter (fun p => 2 ≤ p.length)
      let h := lowerL t
      let idx : Option Nat := needles.foldl (fun acc n =>
        match strFind (lowerL n) h with
        | some j =>
          match acc with
          | some i => if j < i then some j else acc
          | none => some j
        | none => acc) none
      match idx with
      | none => t.take (max_len - 1) ++ [8230]
      | some i =>
        let start := i - max_len / 3
        let endPos := min t.length (start + max_len)
        let s := (t.take endPos).drop start
        let s := if 0 < start then 8230 :: s else s
        let s := if endPos < t.length then s ++ [8230] else s
        s

/-- `search._normalize_needles`: the stripped query plus its tokens of
length ≥ 2, deduplicated case-insensitively preserving order. -/
def _normalize_needles (query : List Nat) : List (List Nat) :=
  let q := pyStrip query
  if q.isEmpty then []
  else
    let needles := q :: (pySplit q).filter (fun p => 2 ≤ p.length)
    (needles.foldl (fun (acc : List (List Nat) × List (List Nat)) n =>
      let key := lowerL n
      if acc.1.contains key then acc else (acc.1 ++ [key], acc.2 ++ [n])) ([], [])).2

/-- SQL `LIKE` with `%` and `_` wildcards (the pattern the source
builds by concatenation, so wildcard characters inside the query keep
their `LIKE` meaning while `instr` below treats them literally).
Fuel-driven; the wrapper supplies ample fuel. -/
def likeMatchGo : Nat → List Nat → List Nat → Bool
  | 0, _, _ => false
  | _ + 1, [], [] => true
  | _ + 1, [], _ :: _ => false
  | fuel + 1, 37 :: ps, ts =>
    likeMatchGo fuel ps ts ||
      (match ts with
       | [] => false
       | _ :: ts1 => likeMatchGo fuel (37 :: ps) ts1)
  | fuel + 1, 95 :: ps, _ :: ts => likeMatchGo fuel ps ts
  | _ + 1, 95 :: _, [] => false
  | fuel + 1, p :: ps, t :: ts => p == t && likeMatchGo fuel ps ts
  | _ + 1, _ :: _, [] => false

def likeMatch (pat txt : List Nat) : Bool :=
  likeMatchGo (pat.length + txt.length + 1) pat txt

/-- DuckDB `instr(haystack, needle)`: 1-based position of the first
occurrence, `0` when absent. -/
def instr (hay needle : List Nat) : Nat :=
  match strFind needle hay with
  | some i => i + 1
  | none => 0

/-- The `role` filter: user-only by default, widened to
user/assistant/NULL with `include_assistant`. -/
def roleClause (include_assistant : Bool) (r : Option (List Nat)) : Bool :=
  if include_assistant then
    r == some (str2cp "user") || r == some (str2cp "assistant") || r == none
  else r == some (str2cp "user")

/-- The `kind` filter: the two message kinds by default, everything
with `include_internal`. -/
def kindClause (include_internal : Bool) (k : String) : Bool :=
  if include_internal then true
  else k == "message_content" || k == "message_summary"

/-- Three-way comparison on rationals. -/
def cmpRat (a b : Rat) : Ordering :=
  if a < b then Ordering.lt else if b < a then Ordering.gt else Ordering.eq

/-- `match_pos ASC NULLS LAST` as a comparator. -/
def cmpPosAsc (a b : Option Nat) : Ordering :=
  match a, b with
  | none, none => Ordering.eq
  | none, some _ => Ordering.gt
  | some _, none => Ordering.lt
  | some x, some y => compare x y

/-- `event_ts DESC NULLS LAST` as a comparator. -/
def cmpTsDesc (a b : Option Rat) : Ordering :=
  match a, b with
  | none, none => Ordering.eq
  | none, some _ => Ordering.gt
  | some _, none => Ordering.lt
  | some x, some y => cmpRat y x

/-- The substring-mode `ORDER BY` on a (row, match_pos) pair:
`match_pos ASC NULLS LAST, event_ts DESC NULLS LAST`, with the primary
key flipped to the timestamp for `sort=recent`. -/
def subCmp (recent : Bool) (x y : DocRow × Nat) : Ordering :=
  if recent then
    (cmpTsDesc x.1.event_ts y.1.event_ts).then (cmpPosAsc (some x.2) (some y.2))
  else
    (cmpPosAsc (some x.2) (some y.2)).then (cmpTsDesc x.1.event_ts y.1.event_ts)

/-- Non-strict order induced by a comparator. -/
def cmpLe {α : Type} (cmp : α → α → Ordering) (x y : α) : Bool :=
  cmp x y != Ordering.gt

/-- Insert into a sorted list (the model's refinement of SQL
`ORDER BY`, which leaves ties unspecified). -/
def insertLe {α : Type} (le : α → α → Bool) (x : α) : List α → List α
  | [] => [x]
  | y :: ys => if le x y then x :: y :: ys else y :: insertLe le x ys

/-- Insertion sort by a boolean order. -/
def isortBy {α : Type} (le : α → α → Bool) : List α → List α
  | [] => []
  | x :: xs => insertLe le x (isortBy le xs)

/-- `search.SearchResult`. -/
structure SearchResult where
  doc_id : String
  session_id : Option (List Nat)
  event_ts : Option Rat
  role : Option (List Nat)
  kind : String
  file_path : String
  line_no : Nat
  score : Option Rat
  match_pos : Option Nat
  snippet : List Nat
  text : Option (List Nat)

/-- The substring fallback query plus result construction: filter by
role, kind and case-insensitive containment; compute `instr` match
positions; order; limit; build results. -/
def substringScan (docs : List DocRow) (q : List Nat) (limit : Nat)
    (include_assistant include_internal recent include_text : Bool) :
    List SearchResult :=
  let keep := fun (d : DocRow) =>
    roleClause include_assistant d.role && kindClause include_internal d.kind &&
      likeMatch (37 :: (lowerL q ++ [37])) (lowerL d.text)
  let rows := (docs.filter keep).map (fun d => (d, instr (lowerL d.text) (lowerL q)))
  let sorted := isortBy (cmpLe (subCmp recent)) rows
  (sorted.take limit).map (fun p =>
    { doc_id := p.1.doc_id
      session_id := p.1.session_id
      event_ts := p.1.event_ts
      role := p.1.role
      kind := p.1.kind
      file_path := p.1.file_path
      line_no := p.1.line_no
      score := none
      match_pos := some p.2
      snippet := _make_snippet p.1.text q
      text := if include_text then some p.1.text else none })

/-- A row returned by the ranked (FTS) query, in the `SELECT` order of
the source; `match_pos` is selected as NULL there. -/
structure FtsRow where
  doc_id : String
  session_id : Option (List Nat)
  event_ts : Option Rat
  role : Option (List Nat)
  kind : String
  file_path : String
  line_no : Nat
  score : Option Rat
  text : List Nat

/-- Result built from a ranked row. -/
def ftsResultOfRow (q : List Nat) (include_text : Bool) (r : FtsRow) : SearchResult :=
  { doc_id := r.doc_id
    session_id := r.session_id
    event_ts := r.event_ts
    role := r.role
    kind := r.kind
    file_path := r.file_path
    line_no := r.line_no
    score := r.score
    match_pos := none
    snippet := _make_snippet r.text q
    text := if include_text then some r.text else none }

/-- `search.search`: empty query short-circuits with the current
availability as the mode; otherwise re-probe FTS availability when
unset, attempt the ranked query when available and ready (`ranked =
none` models the ranked query raising, which is caught), and fall back
to the substring scan whenever the ranked path is skipped, raises, or
returns no rows.  Returns `((results, mode), settings)` — the settings
may have been updated by the availability probe. -/
def search (settings : Settings) (docs : List DocRow) (enableOk : Bool)
    (ranked : Option (List FtsRow)) (query : List Nat) (limit : Nat)
    (include_assistant include_internal : Bool) (sort : String)
    (include_text : Bool) : (List SearchResult × String) × Settings :=
  let q := pyStrip query
  if q.isEmpty then
    (([], if is_fts_available settings then "fts" else "substring"), settings)
  else
    let settings1 :=
      if is_fts_available settings then settings
      else set_setting settings "fts_available" (if enableOk then "1" else "0")
    let fts_index_ready := get_setting settings1 "fts_index_ready" == some "1"
    let subAnswer :=
      ((substringScan docs q limit include_assistant include_internal
          (sort == "recent") include_text, "substring"), settings1)
    if is_fts_available settings1 && fts_index_ready then
      match ranked with
      | none => subAnswer
      | some rows =>
        let results := rows.map (ftsResultOfRow q include_text)
        if results.isEmpty then subAnswer else ((results, "fts"), settings1)
    else subAnswer

/-! ## Vocabulary for the statements below -/

/-- A raw line on which the tail-pass loop advances and continues:
it decodes, and after stripping is either blank or parses as JSON. -/
def okLine (bline : List Nat) : Bool :=
  match utf8Decode false bline with
  | some cs => (pyStrip cs).isEmpty || (jsonLoads (pyStrip cs)).isSome
  | none => false

/-- A raw line on which the tail-pass loop stops the file: it decodes
to a non-blank line that fails JSON parsing (a truncated/partial
write). -/
def badLine (bline : List Nat) : Bool :=
  match utf8Decode false bline with
  | some cs => !(pyStrip cs).isEmpty && (jsonLoads (pyStrip cs)).isNone
  | none => false

/-- Total byte length of a chunk list. -/
def totalLen (ls : List (List Nat)) : Nat :=
  (ls.map List.length).sum

/-- The substring `ORDER BY` read off two returned results (match
position ascending with NULLS LAST, event time descending with NULLS
LAST, primary key flipped for `sort=recent`). -/
def subResCmp (recent : Bool) (a b : SearchResult) : Ordering :=
  if recent then
    (cmpTsDesc a.event_ts b.event_ts).then (cmpPosAsc a.match_pos b.match_pos)
  else
    (cmpPosAsc a.match_pos b.match_pos).then (cmpTsDesc a.event_ts b.event_ts)

/-- The cursor invariant maintained by ingestion: a stored offset never
exceeds the stored size (both are recorded together from the same
pass). -/
def cursorWithinSize (db : DB) : Prop :=
  ∀ p r, alookup p db.session_files = some r → r.last_offset ≤ r.size

/-- The no-change test of `refresh` (`same_size and same_mtime`): the
sizes agree and `mtime_epoch` is stored and within `0.0005` of the
current value. -/
def sameCheck (row : FileRow) (f : FileState) : Bool :=
  (f.content.length == row.size) &&
    (match row.mtime_epoch with
     | some q => mtimeClose q f.mtime_epoch
     | none => false)

/-- The row written by `ingestTail` for file `f`. -/
def ingestRow (incA incI : Bool) (now : Nat) (db : DB) (f : FileState)
    (lo lln : Nat) (known : Option (List Nat)) : FileRow :=
  { session_id := coalesce
      (processEvents incA incI f.path (tailPass f.content lo lln).events known
        db.sessions).2.2.2
      (match alookup f.path db.session_files with
       | some r => r.session_id
       | none => none)
    size := f.content.length
    mtime := f.mtime_epoch
    mtime_epoch := some f.mtime_epoch
    last_offset := (tailPass f.content lo lln).last_good_offset
    last_line_no := (tailPass f.content lo lln).last_good_line_no
    last_seen_at := now }

/-- The cursor fields of a stored file row. -/
def cursorOf (r : FileRow) : Nat × Nat :=
  (r.last_offset, r.last_line_no)

/-! # Theorems -/

/-! ## Decoding safety -/

theorem utf8DecodeGo_replace_isSome :
    ∀ (fuel : Nat) (bs : List Nat), bs.length ≤ fuel →
      (utf8DecodeGo false fuel bs).isSome = true := by
  intro fuel
  induction fuel with
  | zero =>
    intro bs h
    cases bs with
    | nil => rfl
    | cons b rest => simp at h
  | succ n ih =>
    intro bs h
    cases bs with
    | nil => rfl
    | cons b rest =>
      rcases hstep : utf8Step (b :: rest) with ⟨co, k⟩
      cases co with
      | some c =>
        simp only [utf8DecodeGo, hstep, Option.isSome_map']
        exact ih (List.drop (k ⊔ 1) (b :: rest)) (by
          have hd := List.length_drop (k ⊔ 1) (b :: rest)
          simp only [hd]
          omega)
      | none =>
        simp only [utf8DecodeGo, hstep, Bool.false_eq_true, if_false, Option.isSome_map']
        exact ih (List.drop (k ⊔ 1) (b :: rest)) (by
          have hd := List.length_drop (k ⊔ 1) (b :: rest)
          simp only [hd]
          omega)

theorem utf8Decode_replace_isSome (bs : List Nat) :
    (utf8Decode false bs).isSome = true :=
  utf8DecodeGo_replace_isSome bs.length bs le_rfl

/-! Step equations for the per-line loop. -/

theorem goLines_nil (s : TailState) : goLines [] s = s := rfl

theorem goLines_cons_blank {bline cs : List Nat} (rest : List (List Nat)) (s : TailState)
    (hd : utf8Decode false bline = some cs) (hb : pyStrip cs = []) :
    goLines (bline :: rest) s = goLines rest { s with
      lines_read := s.lines_read + 1
      offset := s.offset + bline.length
      line_no := s.line_no + 1
      last_good_offset := s.offset + bline.length
      last_good_line_no := s.line_no + 1 } := by
  simp [goLines, hd, hb]

theorem goLines_cons_fail {bline cs : List Nat} (rest : List (List Nat)) (s : TailState)
    (hd : utf8Decode false bline = some cs) (hb : pyStrip cs ≠ [])
    (hp : jsonLoads (pyStrip cs) = none) :
    goLines (bline :: rest) s = { s with
      lines_read := s.lines_read + 1
      offset := s.offset + bline.length
      line_no := s.line_no + 1 } := by
  simp [goLines, hd, List.isEmpty_iff, hb, hp]

theorem goLines_cons_obj {bline cs : List Nat} {kvs : PyDict} (rest : List (List Nat))
    (s : TailState) (hd : utf8Decode false bline = some cs) (hb : pyStrip cs ≠ [])
    (hp : jsonLoads (pyStrip cs) = some (Json.jobj kvs)) :
    goLines (bline :: rest) s = goLines rest { s with
      lines_read := s.lines_read + 1
      offset := s.offset + bline.length
      line_no := s.line_no + 1
      last_good_offset := s.offset + bline.length
      last_good_line_no := s.line_no + 1
      lines_ingested := s.lines_ingested + 1
      events := s.events ++ [(s.line_no + 1, kvs)] } := by
  simp [goLines, hd, List.isEmpty_iff, hb, hp]

theorem goLines_cons_nonobj {bline cs : List Nat} {v : Json} (rest : List (List Nat))
    (s : TailState) (hd : utf8Decode false bline = some cs) (hb : pyStrip cs ≠ [])
    (hp : jsonLoads (pyStrip cs) = some v) (hv : ∀ kvs, v ≠ Json.jobj kvs) :
    goLines (bline :: rest) s = goLines rest { s with
      lines_read := s.lines_read + 1
      offset := s.offset + bline.length
      line_no := s.line_no + 1
      last_good_offset := s.offset + bline.length
      last_good_line_no := s.line_no + 1 } := by
  cases v with
  | jobj kvs => exact absurd rfl (hv kvs)
  | jnull => simp [goLines, hd, List.isEmpty_iff, hb, hp]
  | jbool b => simp [goLines, hd, List.isEmpty_iff, hb, hp]
  | jnum t => simp [goLines, hd, List.isEmpty_iff, hb, hp]
  | jstr t => simp [goLines, hd, List.isEmpty_iff, hb, hp]
  | jarr xs => simp [goLines, hd, List.isEmpty_iff, hb, hp]

theorem goLines_decode_preserved (ls : List (List Nat)) :
    ∀ s : TailState, s.decode_failed = false → (goLines ls s).decode_failed = false := by
  induction ls with
  | nil => intro s h; simpa [goLines] using h
  | cons bline rest ih =>
    intro s h
    cases hd : utf8Decode false bline with
    | none =>
      have := utf8Decode_replace_isSome bline
      rw [hd] at this
      simp at this
    | some cs =>
      by_cases hb : pyStrip cs = []
      · rw [goLines_cons_blank rest s hd hb]
        exact ih _ h
      · cases hp : jsonLoads (pyStrip cs) with
        | none => rw [goLines_cons_fail rest s hd hb hp]; exact h
        | some v =>
          cases v with
          | jobj kvs => rw [goLines_cons_obj rest s hd hb hp]; exact ih _ h
          | jnull =>
            rw [goLines_cons_nonobj rest s hd hb hp (by intro kvs hc; cases hc)]
            exact ih _ h
          | jbool b =>
            rw [goLines_cons_nonobj rest s hd hb hp (by intro kvs hc; cases hc)]
            exact ih _ h
          | jnum t =>
            rw [goLines_cons_nonobj rest s hd hb hp (by intro kvs hc; cases hc)]
            exact ih _ h
          | jstr t =>
            rw [goLines_cons_nonobj rest s hd hb hp (by intro kvs hc; cases hc)]
            exact ih _ h
          | jarr xs =>
            rw [goLines_cons_nonobj rest s hd hb hp (by intro kvs hc; cases hc)]
            exact ih _ h

/-- C10: decoding a raw line during a tail pass never raises — UTF-8
decoding with `errors="replace"` succeeds on every byte sequence, so
the `except` branch guarding the decode (the only writer of the
`decode_failed` flag, which models stopping the file on a decode
failure) is unreachable: the flag stays clear on every run of the
loop. -/
theorem C10_decode_never_fails :
    (∀ bs : List Nat, (utf8Decode false bs).isSome = true) ∧
    (∀ (ls : List (List Nat)) (s : TailState), s.decode_failed = false →
      (goLines ls s).decode_failed = false) :=
  ⟨utf8Decode_replace_isSome, goLines_decode_preserved⟩

/-- Witness for C10 at concrete inputs: an invalid byte sequence still
decodes, and a concrete loop run keeps the decode-failure flag clear. -/
theorem C10_decode_never_fails_witness :
    ((utf8Decode false [104, 255, 254, 104]).isSome = true) ∧
    ((goLines [[53], [255]] (initTail 0 0)).decode_failed = false) :=
  ⟨C10_decode_never_fails.1 [104, 255, 254, 104],
   C10_decode_never_fails.2 [[53], [255]] (initTail 0 0) rfl⟩

/-! ## Association-list store lemmas -/

theorem alookup_aupsert {α β : Type} [DecidableEq α] (k : α) (v : β) (l : List (α × β)) :
    alookup k (aupsert k v l) = some v := by
  induction l with
  | nil => simp [aupsert, alookup]
  | cons p rest ih =>
    rcases p with ⟨k0, v0⟩
    by_cases h : k0 = k
    · simp [aupsert, alookup, h]
    · simp [aupsert, alookup, h, ih]

theorem alookup_aupsert_ne {α β : Type} [DecidableEq α] {k k' : α} (hne : k' ≠ k)
    (v : β) (l : List (α × β)) : alookup k' (aupsert k v l) = alookup k' l := by
  induction l with
  | nil =>
    simp only [aupsert, alookup]
    rw [if_neg (fun h => hne h.symm)]
  | cons p rest ih =>
    rcases p with ⟨k0, v0⟩
    by_cases h : k0 = k
    · subst h
      have hkk : k0 ≠ k' := fun h2 => hne h2.symm
      simp only [aupsert, if_pos rfl, alookup, if_neg hkk]
    · simp only [aupsert, if_neg h, alookup]
      by_cases h2 : k0 = k'
      · rw [if_pos h2, if_pos h2]
      · rw [if_neg h2, if_neg h2, ih]

/-! ## C5: the session-metadata merge rule -/

theorem leastSql_coalesce (a b : Option Rat) :
    leastSql (coalesce a b) b =
      match a, b with
      | none, x => x
      | some x, none => some x
      | some x, some y => some (min x y) := by
  cases a <;> cases b <;> simp [leastSql, coalesce]

theorem greatestSql_coalesce (a b : Option Rat) :
    greatestSql (coalesce a b) b =
      match a, b with
      | none, x => x
      | some x, none => some x
      | some x, some y => some (max x y) := by
  cases a <;> cases b <;> simp [greatestSql, coalesce]

/-- C5 counterexample: merging a metadata record whose `cwd` is `/b`
into a session whose stored `cwd` is `/a` (non-null) adopts the *new*
value `/b` — the source writes `COALESCE(excluded.cwd, sessions.cwd)`,
so an incoming non-null value wins, while the claim says the existing
stored value is kept unless it is null. -/
theorem C5_counterexample :
    (alookup (str2cp "s")
      (_upsert_session
        [(str2cp "s",
          { first_ts := none, last_ts := none, cwd := some (str2cp "/a"),
            originator := none, cli_version := none, source := none,
            model_provider := none, instructions := none })]
        [(str2cp "id", Json.jstr (str2cp "s")),
         (str2cp "cwd", Json.jstr (str2cp "/b"))]
        none).1).map SessionRow.cwd = some (some (str2cp "/b")) ∧
    some (str2cp "/b") ≠ some (str2cp "/a") := by
  refine ⟨rfl, by decide⟩

/-- C5 (amended): when a session-metadata record is merged into an
existing session row, each non-timestamp field (`cwd`, `originator`,
`cli_version`, `source`, `model_provider`, `instructions`) adopts the
*incoming* value unless that incoming value is null, in which case the
existing stored value is kept; `first_ts` becomes the minimum and
`last_ts` the maximum of the existing and new timestamps, with null
treated as adopt-the-other. -/
theorem C5_session_merge (tbl : SessionsTable) (meta : PyDict) (evts : Option Json)
    (sid : List Nat) (e : SessionRow)
    (hid : dictGet meta (str2cp "id") = some (Json.jstr sid))
    (hne : sid ≠ [])
    (hlk : alookup sid tbl = some e) :
    ∃ e', alookup sid (_upsert_session tbl meta evts).1 = some e' ∧
      (e'.first_ts =
        (match e.first_ts,
            coalesce (parseTsJ (dictGet meta (str2cp "timestamp"))) (parseTsJ evts) with
          | none, x => x
          | some a, none => some a
          | some a, some b => some (min a b)) ∧
       e'.last_ts =
        (match e.last_ts,
            coalesce (parseTsJ (dictGet meta (str2cp "timestamp"))) (parseTsJ evts) with
          | none, x => x
          | some a, none => some a
          | some a, some b => some (max a b)) ∧
       e'.cwd = coalesce (jsonAsStr (dictGet meta (str2cp "cwd"))) e.cwd ∧
       e'.originator = coalesce (jsonAsStr (dictGet meta (str2cp "originator"))) e.originator ∧
       e'.cli_version = coalesce (jsonAsStr (dictGet meta (str2cp "cli_version"))) e.cli_version ∧
       e'.source = coalesce (jsonAsStr (dictGet meta (str2cp "source"))) e.source ∧
       e'.model_provider =
         coalesce (jsonAsStr (dictGet meta (str2cp "model_provider"))) e.model_provider ∧
       e'.instructions =
         coalesce (jsonAsStr (dictGet meta (str2cp "instructions"))) e.instructions) ∧
      (_upsert_session tbl meta evts).2 = 1 := by
  have hempty : sid.isEmpty = false := by
    cases sid with
    | nil => exact absurd rfl hne
    | cons a l => rfl
  set ts := coalesce (parseTsJ (dictGet meta (str2cp "timestamp"))) (parseTsJ evts) with hts
  refine ⟨{ first_ts := leastSql (coalesce e.first_ts ts) ts
            last_ts := greatestSql (coalesce e.last_ts ts) ts
            cwd := coalesce (jsonAsStr (dictGet meta (str2cp "cwd"))) e.cwd
            originator := coalesce (jsonAsStr (dictGet meta (str2cp "originator"))) e.originator
            cli_version := coalesce (jsonAsStr (dictGet meta (str2cp "cli_version"))) e.cli_version
            source := coalesce (jsonAsStr (dictGet meta (str2cp "source"))) e.source
            model_provider := coalesce (jsonAsStr (dictGet meta (str2cp "model_provider"))) e.model_provider
            instructions := coalesce (jsonAsStr (dictGet meta (str2cp "instructions"))) e.instructions },
    ?_, ?_, ?_⟩
  · simp only [_upsert_session, hid, hempty, hlk]
    simp only [Bool.false_eq_true, if_false]
    exact alookup_aupsert _ _ tbl
  · exact ⟨leastSql_coalesce _ _, greatestSql_coalesce _ _, rfl, rfl, rfl, rfl, rfl, rfl⟩
  · simp only [_upsert_session, hid, hempty, hlk]
    simp only [Bool.false_eq_true, if_false]

/-- Witness for C5 at a concrete merge: existing row with `cwd=/a` and
`first_ts=7`, incoming metadata with `cwd=/b` and no timestamp. -/
theorem C5_session_merge_witness :
    ∃ e', alookup (str2cp "s")
      (_upsert_session
        [(str2cp "s",
          { first_ts := some 7, last_ts := some 7, cwd := some (str2cp "/a"),
            originator := none, cli_version := none, source := none,
            model_provider := none, instructions := none })]
        [(str2cp "id", Json.jstr (str2cp "s")),
         (str2cp "cwd", Json.jstr (str2cp "/b"))]
        none).1 = some e' ∧
      (e'.first_ts =
        (match (some 7 : Option Rat),
            coalesce (parseTsJ (dictGet
              [(str2cp "id", Json.jstr (str2cp "s")),
               (str2cp "cwd", Json.jstr (str2cp "/b"))] (str2cp "timestamp")))
              (parseTsJ none) with
          | none, x => x
          | some a, none => some a
          | some a, some b => some (min a b)) ∧
       e'.last_ts =
        (match (some 7 : Option Rat),
            coalesce (parseTsJ (dictGet
              [(str2cp "id", Json.jstr (str2cp "s")),
               (str2cp "cwd", Json.jstr (str2cp "/b"))] (str2cp "timestamp")))
              (parseTsJ none) with
          | none, x => x
          | some a, none => some a
          | some a, some b => some (max a b)) ∧
       e'.cwd = coalesce (jsonAsStr (dictGet
         [(str2cp "id", Json.jstr (str2cp "s")),
          (str2cp "cwd", Json.jstr (str2cp "/b"))] (str2cp "cwd"))) (some (str2cp "/a")) ∧
       e'.originator = coalesce (jsonAsStr (dictGet
         [(str2cp "id", Json.jstr (str2cp "s")),
          (str2cp "cwd", Json.jstr (str2cp "/b"))] (str2cp "originator"))) none ∧
       e'.cli_version = coalesce (jsonAsStr (dictGet
         [(str2cp "id", Json.jstr (str2cp "s")),
          (str2cp "cwd", Json.jstr (str2cp "/b"))] (str2cp "cli_version"))) none ∧
       e'.source = coalesce (jsonAsStr (dictGet
         [(str2cp "id", Json.jstr (str2cp "s")),
          (str2cp "cwd", Json.jstr (str2cp "/b"))] (str2cp "source"))) none ∧
       e'.model_provider = coalesce (jsonAsStr (dictGet
         [(str2cp "id", Json.jstr (str2cp "s")),
          (str2cp "cwd", Json.jstr (str2cp "/b"))] (str2cp "model_provider"))) none ∧
       e'.instructions = coalesce (jsonAsStr (dictGet
         [(str2cp "id", Json.jstr (str2cp "s")),
          (str2cp "cwd", Json.jstr (str2cp "/b"))] (str2cp "instructions"))) none) ∧
      (_upsert_session
        [(str2cp "s",
          { first_ts := some 7, last_ts := some 7, cwd := some (str2cp "/a"),
            originator := none, cli_version := none, source := none,
            model_provider := none, instructions := none })]
        [(str2cp "id", Json.jstr (str2cp "s")),
         (str2cp "cwd", Json.jstr (str2cp "/b"))]
        none).2 = 1 :=
  C5_session_merge
    [(str2cp "s",
      { first_ts := some 7, last_ts := some 7, cwd := some (str2cp "/a"),
        originator := none, cli_version := none, source := none,
        model_provider := none, instructions := none })]
    [(str2cp "id", Json.jstr (str2cp "s")),
     (str2cp "cwd", Json.jstr (str2cp "/b"))]
    none (str2cp "s")
    { first_ts := some 7, last_ts := some 7, cwd := some (str2cp "/a"),
      originator := none, cli_version := none, source := none,
      model_provider := none, instructions := none }
    rfl (by decide) rfl

/-! ## C2: per-run transaction atomicity -/

/-- C2: if an exception is raised while the file loop runs inside the
per-run transaction (any fault schedule making the transaction body
fail), `refresh` rolls back and propagates: the store is left exactly
as it was at `BEGIN TRANSACTION` (after the pre-transaction full-reset
deletes and availability probe, i.e. `preTxDb`) — in particular `docs`,
`sessions` and the `session_files` cursors are untouched by the run —
and no statistics are returned, the exception reaching the caller. -/
theorem C2_rollback (fault : Nat → Bool) (ftsEnableOk rebuildOk incA incI full reindex : Bool)
    (now : Nat) (files : List FileState) (db0 : DB)
    (hfail : refreshTxBody fault incA incI now files 0 (preTxDb full ftsEnableOk db0)
      { files_scanned := files.length, files_updated := 0, lines_read := 0,
        lines_ingested := 0, docs_inserted := 0, sessions_upserted := 0,
        fts_available := ftsEnableOk, fts_reindexed := false } = none) :
    refreshRun fault ftsEnableOk rebuildOk incA incI full reindex now files db0 =
      (preTxDb full ftsEnableOk db0, none) ∧
    (refreshRun fault ftsEnableOk rebuildOk incA incI full reindex now files db0).1.docs =
      (preTxDb full ftsEnableOk db0).docs ∧
    (refreshRun fault ftsEnableOk rebuildOk incA incI full reindex now files db0).1.sessions =
      (preTxDb full ftsEnableOk db0).sessions ∧
    (refreshRun fault ftsEnableOk rebuildOk incA incI full reindex now files db0).1.session_files =
      (preTxDb full ftsEnableOk db0).session_files ∧
    (refreshRun fault ftsEnableOk rebuildOk incA incI full reindex now files db0).2 = none := by
  have h : refreshRun fault ftsEnableOk rebuildOk incA incI full reindex now files db0 =
      (preTxDb full ftsEnableOk db0, none) := by
    simp only [refreshRun, hfail]
  exact ⟨h, by rw [h], by rw [h], by rw [h], by rw [h]⟩

/-- Witness for C2: a fault on the first file of a one-file run rolls
back to the pre-transaction state and propagates. -/
theorem C2_rollback_witness :
    refreshRun (fun _ => true) true true true true false true 5
      [{ path := "a", content := [53, 10], mtime_epoch := 1 }]
      { settings := [], session_files := [], sessions := [], docs := [] } =
      (preTxDb false true { settings := [], session_files := [], sessions := [], docs := [] },
        none) :=
  (C2_rollback (fun _ => true) true true true true false true 5
    [{ path := "a", content := [53, 10], mtime_epoch := 1 }]
    { settings := [], session_files := [], sessions := [], docs := [] } rfl).1

/-! ## C6: ranked-to-substring fallback -/

/-- C6: for every non-empty query, whenever the ranked full-text query
raises (modelled `ranked = none`, the exception being caught) or yields
zero rows, `search` returns the substring-scan results with mode
`"substring"`; and on every input whatsoever `search` returns a result
set with a mode tag that is either `"fts"` or `"substring"` — it never
propagates a failure of the ranked path. -/
theorem C6_search_never_fails :
    (∀ (settings : Settings) (docs : List DocRow) (enableOk : Bool)
        (ranked : Option (List FtsRow)) (query : List Nat) (limit : Nat)
        (incA incI : Bool) (sort : String) (includeText : Bool),
      (pyStrip query).isEmpty = false →
      (ranked = none ∨ ranked = some []) →
      (search settings docs enableOk ranked query limit incA incI sort includeText).1 =
        (substringScan docs (pyStrip query) limit incA incI (sort == "recent") includeText,
         "substring")) ∧
    (∀ (settings : Settings) (docs : List DocRow) (enableOk : Bool)
        (ranked : Option (List FtsRow)) (query : List Nat) (limit : Nat)
        (incA incI : Bool) (sort : String) (includeText : Bool),
      (search settings docs enableOk ranked query limit incA incI sort includeText).1.2 = "fts" ∨
      (search settings docs enableOk ranked query limit incA incI sort includeText).1.2 =
        "substring") := by
  constructor
  · intro settings docs enableOk ranked query limit incA incI sort includeText hq hr
    rcases hr with hr | hr <;> subst hr <;>
      simp only [search, hq, Bool.false_eq_true, if_false] <;> (repeat' split) <;>
      first
      | rfl
      | (exfalso; simp_all)
  · intro settings docs enableOk ranked query limit incA incI sort includeText
    simp only [search]
    (repeat' split) <;>
    first
    | (left; rfl)
    | (right; rfl)

/-- Witness for C6: with the index marked available and ready but the
ranked query returning zero rows, a concrete search call returns the
substring scan and mode `"substring"`. -/
theorem C6_search_never_fails_witness :
    (search [("fts_available", "1"), ("fts_index_ready", "1")] [] true (some [])
      (str2cp "needle") 10 false false "relevance" false).1 =
      (substringScan [] (pyStrip (str2cp "needle")) 10 false false
        ("relevance" == "recent") false, "substring") :=
  C6_search_never_fails.1 [("fts_available", "1"), ("fts_index_ready", "1")] [] true
    (some []) (str2cp "needle") 10 false false "relevance" false rfl (Or.inr rfl)

/-! ## C8: snippet extraction -/

theorem strFind_some_prefix {n : List Nat} :
    ∀ {h : List Nat} {i : Nat}, strFind n h = some i → n <+: h.drop i := by
  intro h
  induction h with
  | nil =>
    intro i hf
    simp only [strFind] at hf
    by_cases he : n.isEmpty
    · rw [if_pos he] at hf
      cases hf
      have hn : n = [] := List.isEmpty_iff.mp he
      simp [hn]
    · rw [if_neg he] at hf
      cases hf
  | cons c rest ih =>
    intro i hf
    simp only [strFind] at hf
    by_cases hp : n.isPrefixOf (c :: rest)
    · rw [if_pos hp] at hf
      cases hf
      simpa using List.isPrefixOf_iff_prefix.mp hp
    · rw [if_neg hp] at hf
      rcases Option.map_eq_some'.mp hf with ⟨j, hj, hij⟩
      subst hij
      simpa [List.drop_succ_cons] using ih hj

theorem strFind_isSome_of_prefix {n : List Nat} :
    ∀ {h : List Nat} {i : Nat}, n <+: h.drop i → (strFind n h).isSome = true := by
  intro h
  induction h with
  | nil =>
    intro i hp
    rw [List.drop_nil] at hp
    have hn : n = [] := List.prefix_nil.mp hp
    simp [strFind, hn]
  | cons c rest ih =>
    intro i hp
    simp only [strFind]
    by_cases hq : n.isPrefixOf (c :: rest)
    · rw [if_pos hq]; rfl
    · rw [if_neg hq]
      cases i with
      | zero =>
        rw [List.drop_zero] at hp
        exact absurd (List.isPrefixOf_iff_prefix.mpr hp) hq
      | succ j =>
        rw [List.drop_succ_cons] at hp
        simpa [Option.isSome_map'] using ih hp

theorem prefix_take_of_le {n h : List Nat} {m : Nat} (hp : n <+: h) (hm : n.length ≤ m) :
    n <+: h.take m := by
  have he := List.prefix_iff_eq_take.mp hp
  rw [List.prefix_iff_eq_take]
  rw [List.take_take, min_eq_left hm, ← he]

theorem prefix_in_slice {q' h : List Nat} {i start endPos : Nat}
    (hstart : start ≤ i) (hend : i + q'.length ≤ endPos)
    (hocc : q' <+: h.drop i) :
    q' <+: ((h.take endPos).drop start).drop (i - start) := by
  rw [List.drop_take, List.drop_take, List.drop_drop]
  have h1 : start + (i - start) = i := by omega
  rw [h1]
  exact prefix_take_of_le hocc (by omega)

theorem lowerCp_ellipsis : lowerCp 8230 = 8230 := by decide

/-- The snippet window around an occurrence at `j` keeps any needle of
length at most `180 - 180/3` fully inside, ellipsis markers included. -/
theorem snippet_window_contains {t q' : List Nat} {j : Nat}
    (h180 : 180 < t.length) (hq1 : 1 ≤ q'.length) (hqlen : q'.length ≤ 120)
    (hjlen : j + q'.length ≤ t.length)
    (hpre : q' <+: (lowerL t).drop j) :
    (strFind q' (lowerL (
      let start := j - 180 / 3
      let endPos := min t.length (start + 180)
      let s := (t.take endPos).drop start
      let s := if 0 < start then 8230 :: s else s
      let s := if endPos < t.length then s ++ [8230] else s
      s))).isSome = true := by
  set start := j - 180 / 3 with hstart_def
  set endPos := min t.length (start + 180) with hend_def
  have hsj : start ≤ j := by omega
  have hjend : j + q'.length ≤ endPos := by
    refine le_min hjlen ?_
    omega
  have hcore : q' <+: (((lowerL t).take endPos).drop start).drop (j - start) :=
    prefix_in_slice hsj hjend hpre
  have hXlen : (((lowerL t).take endPos).drop start).length = endPos - start := by
    rw [List.length_drop, List.length_take]
    have hle : endPos ≤ (lowerL t).length := by
      rw [lowerL, List.length_map]
      exact min_le_left _ _
    rw [min_eq_left hle]
  have hjs : j - start ≤ (((lowerL t).take endPos).drop start).length := by
    rw [hXlen]
    omega
  have hext : ∀ tail : List Nat,
      q' <+: ((((lowerL t).take endPos).drop start) ++ tail).drop (j - start) := by
    intro tail
    rw [List.drop_append_of_le_length hjs]
    exact hcore.trans (List.prefix_append _ _)
  have hmapcore : lowerL ((t.take endPos).drop start) =
      ((lowerL t).take endPos).drop start := by
    rw [lowerL, lowerL, List.map_drop, List.map_take]
  have h8 : List.map lowerCp [8230] = [8230] := by decide
  have hmapcore2 : List.map lowerCp ((t.take endPos).drop start) =
      ((lowerL t).take endPos).drop start := hmapcore
  dsimp only
  by_cases hs0 : 0 < start <;> by_cases hsend : endPos < t.length
  · rw [if_pos hs0, if_pos hsend]
    rw [List.cons_append]
    refine strFind_isSome_of_prefix (n := q') (i := (j - start) + 1) ?_
    rw [lowerL, List.map_cons, lowerCp_ellipsis, List.drop_succ_cons, List.map_append, h8,
      ← hend_def, hmapcore2]
    exact hext [8230]
  · rw [if_pos hs0, if_neg hsend]
    refine strFind_isSome_of_prefix (n := q') (i := (j - start) + 1) ?_
    rw [lowerL, List.map_cons, lowerCp_ellipsis, List.drop_succ_cons, ← hend_def, hmapcore2]
    exact hcore
  · rw [if_neg hs0, if_pos hsend]
    refine strFind_isSome_of_prefix (n := q') (i := j - start) ?_
    rw [lowerL, List.map_append, h8, ← hend_def, hmapcore2]
    exact hext [8230]
  · rw [if_neg hs0, if_neg hsend]
    refine strFind_isSome_of_prefix (n := q') (i := j - start) ?_
    rw [lowerL, ← hend_def, hmapcore2]
    exact hcore

set_option maxRecDepth 40000 in
/-- C8 counterexample: for the multi-token query `ab cd`, a long text
that literally contains the query but whose token `ab` occurs much
earlier gets a snippet window centered on that early token, and the
returned snippet does not contain the query at all — refuting "on
longer text that literally contains the query, the returned snippet
always contains the query substring case-insensitively". -/
theorem C8_counterexample :
    (strFind (lowerL (str2cp "ab cd"))
      (lowerL (str2cp "ab " ++ List.replicate 200 120 ++ str2cp " ab cd"))).isSome = true ∧
    180 < (collapseWs (str2cp "ab " ++ List.replicate 200 120 ++ str2cp " ab cd")).length ∧
    (strFind (lowerL (str2cp "ab cd"))
      (lowerL (_make_snippet (str2cp "ab " ++ List.replicate 200 120 ++ str2cp " ab cd")
        (str2cp "ab cd") 180))).isSome = false := by
  refine ⟨?_, ?_, ?_⟩ <;> decide

theorem pySplitGo_nil (fuel : Nat) : pySplitGo fuel [] = [] := by
  cases fuel <;> rfl

theorem dropWhile_eq_self_of_forall {p : Nat → Bool} :
    ∀ {l : List Nat}, (∀ c ∈ l, p c = false) → l.dropWhile p = l := by
  intro l h
  cases l with
  | nil => rfl
  | cons c rest =>
    rw [List.dropWhile_cons_of_neg]
    simp [h c (by simp)]

theorem takeWhile_eq_self_of_forall {p : Nat → Bool} :
    ∀ {l : List Nat}, (∀ c ∈ l, p c = true) → l.takeWhile p = l := by
  intro l
  induction l with
  | nil => intro _; rfl
  | cons c rest ih =>
    intro h
    rw [List.takeWhile_cons_of_pos (h c (by simp))]
    rw [ih (fun x hx => h x (by simp [hx]))]

theorem pySplit_single {q : List Nat} (hne : q ≠ [])
    (hns : ∀ c ∈ q, isPySpace c = false) : pySplit q = [q] := by
  cases q with
  | nil => exact absurd rfl hne
  | cons c rest =>
    show pySplitGo (rest.length + 1) (c :: rest) = [c :: rest]
    simp only [pySplitGo]
    rw [dropWhile_eq_self_of_forall hns]
    have htake : (c :: rest).takeWhile (fun x => !isPySpace x) = c :: rest :=
      takeWhile_eq_self_of_forall (fun x hx => by simp [hns x hx])
    simp only [htake]
    rw [List.drop_length]
    rw [pySplitGo_nil]

/-- C8 (amended): on text whose whitespace-collapsed form is at most
the max length (180), `_make_snippet` returns that collapsed text
unchanged.  On longer text, when the query is a single whitespace-free
token of length at most `180 - 180/3 = 120` that occurs
case-insensitively in the collapsed text, the returned snippet contains
the query case-insensitively.  (For multi-token queries the window is
centered on the earliest-occurring needle — the full query or any of
its tokens of length ≥ 2 — and can cut off the full query, see the
counterexample; likewise a token longer than 120 characters can
overflow the window.) -/
theorem C8_snippet :
    (∀ text query : List Nat, (collapseWs text).length ≤ 180 →
      _make_snippet text query 180 = collapseWs text) ∧
    (∀ text query : List Nat,
      180 < (collapseWs text).length →
      pyStrip query ≠ [] →
      (∀ c ∈ pyStrip query, isPySpace c = false) →
      (pyStrip query).length ≤ 120 →
      (strFind (lowerL (pyStrip query)) (lowerL (collapseWs text))).isSome = true →
      (strFind (lowerL (pyStrip query))
        (lowerL (_make_snippet text query 180))).isSome = true) := by
  constructor
  · intro text query hlen
    simp only [_make_snippet]
    rw [if_pos hlen]
  · intro text query h180 hne hnospace hqlen hocc
    obtain ⟨j, hfind⟩ := Option.isSome_iff_exists.mp hocc
    have hempty : (pyStrip query).isEmpty = false := by
      cases hq : pyStrip query with
      | nil => exact absurd hq hne
      | cons a l => rfl
    have hps : pySplit (pyStrip query) = [pyStrip query] := pySplit_single hne hnospace
    have hpre : lowerL (pyStrip query) <+: (lowerL (collapseWs text)).drop j :=
      strFind_some_prefix hfind
    have hq1 : 1 ≤ (pyStrip query).length := by
      cases hq : pyStrip query with
      | nil => exact absurd hq hne
      | cons a l => simp
    have hjlen : j + (pyStrip query).length ≤ (collapseWs text).length := by
      have h1 := hpre.length_le
      rw [List.length_drop] at h1
      simp only [lowerL, List.length_map] at h1
      omega
    have hq1l : 1 ≤ (lowerL (pyStrip query)).length := by
      rw [lowerL, List.length_map]; exact hq1
    have hqlenl : (lowerL (pyStrip query)).length ≤ 120 := by
      rw [lowerL, List.length_map]; exact hqlen
    have hjlenl : j + (lowerL (pyStrip query)).length ≤ (collapseWs text).length := by
      rw [lowerL, List.length_map]; exact hjlen
    simp only [_make_snippet]
    rw [if_neg (by omega)]
    rw [hempty]
    simp only [Bool.false_eq_true, if_false]
    rw [hps]
    have hfold : ∀ tail : List (List Nat),
        (∀ n ∈ tail, lowerL n = lowerL (pyStrip query)) →
        ((pyStrip query :: tail).foldl (fun acc n =>
          match strFind (lowerL n) (lowerL (collapseWs text)) with
          | some j =>
            match acc with
            | some i => if j < i then some j else acc
            | none => some j
          | none => acc) none) = some j := by
      intro tail htail
      have hstep : ∀ acc : Option Nat, acc = some j →
          ∀ t2 : List (List Nat), (∀ n ∈ t2, lowerL n = lowerL (pyStrip query)) →
          (t2.foldl (fun acc n =>
            match strFind (lowerL n) (lowerL (collapseWs text)) with
            | some j =>
              match acc with
              | some i => if j < i then some j else acc
              | none => some j
            | none => acc) acc) = some j := by
        intro acc hacc t2
        induction t2 generalizing acc with
        | nil => intro _; simpa using hacc
        | cons n rest ih =>
          intro hmem
          rw [List.foldl_cons]
          have hn := hmem n (by simp)
          rw [hn, hfind, hacc]
          exact ih _ (by simp) (fun m hm => hmem m (by simp [hm]))
      rw [List.foldl_cons, hfind]
      exact hstep _ rfl tail htail
    by_cases h2 : 2 ≤ (pyStrip query).length
    · rw [List.filter_cons_of_pos (by simpa using h2), List.filter_nil]
      rw [hfold [pyStrip query] (by intro n hn; simp at hn; rw [hn])]
      exact snippet_window_contains h180 hq1l hqlenl hjlenl hpre
    · rw [List.filter_cons_of_neg (by simpa using h2), List.filter_nil]
      rw [hfold [] (by intro n hn; simp at hn)]
      exact snippet_window_contains h180 hq1l hqlenl hjlenl hpre

set_option maxRecDepth 40000 in
/-- Witness for C8: a short text comes back collapsed and unchanged; a
207-character text starting with `needle` yields a snippet that still
contains the single-token query `needle`. -/
theorem C8_snippet_witness :
    (_make_snippet (str2cp "short text") (str2cp "q") 180 = collapseWs (str2cp "short text")) ∧
    (strFind (lowerL (pyStrip (str2cp "needle")))
      (lowerL (_make_snippet (str2cp "needle " ++ List.replicate 200 120)
        (str2cp "needle") 180))).isSome = true :=
  ⟨C8_snippet.1 (str2cp "short text") (str2cp "q") (by decide),
   C8_snippet.2 (str2cp "needle " ++ List.replicate 200 120) (str2cp "needle")
     (by decide) (by decide) (by decide) (by decide) (by decide)⟩

/-! ## C7: substring-mode ordering -/

theorem nat_compare_symm (m n : Nat) : compare m n = (compare n m).swap := by
  rcases Nat.lt_trichotomy m n with h | h | h
  · rw [(Nat.compare_eq_lt).mpr h, (Nat.compare_eq_gt).mpr h]
    rfl
  · subst h
    rw [(Nat.compare_eq_eq).mpr rfl]
    rfl
  · rw [(Nat.compare_eq_gt).mpr h, (Nat.compare_eq_lt).mpr h]
    rfl

theorem cmpRat_eq_lt {a b : Rat} : cmpRat a b = Ordering.lt ↔ a < b := by
  unfold cmpRat
  by_cases h : a < b
  · simp [h]
  · by_cases h2 : b < a <;> simp [h, h2]

theorem cmpRat_eq_eq {a b : Rat} : cmpRat a b = Ordering.eq ↔ a = b := by
  unfold cmpRat
  rcases lt_trichotomy a b with h | h | h
  · rw [if_pos h]
    simp [ne_of_lt h]
  · subst h
    simp [lt_irrefl]
  · rw [if_neg (lt_asymm h), if_pos h]
    simp [ne_of_gt h]

theorem cmpRat_symm (a b : Rat) : cmpRat a b = (cmpRat b a).swap := by
  unfold cmpRat
  rcases lt_trichotomy a b with h | h | h
  · rw [if_pos h, if_neg (lt_asymm h), if_pos h]
    rfl
  · subst h
    simp only [lt_irrefl, if_false]
    rfl
  · rw [if_neg (lt_asymm h), if_pos h, if_pos h]
    rfl

theorem cmpPosAsc_symm (a b : Option Nat) : cmpPosAsc a b = (cmpPosAsc b a).swap := by
  cases a with
  | none => cases b <;> rfl
  | some x =>
    cases b with
    | none => rfl
    | some y => exact nat_compare_symm x y

theorem cmpPosAsc_lt_trans {a b c : Option Nat} (h1 : cmpPosAsc a b = Ordering.lt)
    (h2 : cmpPosAsc b c = Ordering.lt) : cmpPosAsc a c = Ordering.lt := by
  cases a with
  | none =>
    cases b with
    | none => exact nomatch h1
    | some y => exact nomatch h1
  | some x =>
    cases c with
    | none =>
      cases b with
      | none => exact nomatch h2
      | some y => rfl
    | some z =>
      cases b with
      | none => exact nomatch h2
      | some y =>
        exact Nat.compare_eq_lt.mpr
          (lt_trans (Nat.compare_eq_lt.mp h1) (Nat.compare_eq_lt.mp h2))

theorem cmpPosAsc_eqL {a b : Option Nat} (h : cmpPosAsc a b = Ordering.eq) :
    ∀ c, cmpPosAsc a c = cmpPosAsc b c := by
  intro c
  cases a with
  | none =>
    cases b with
    | none => rfl
    | some y => exact nomatch h
  | some x =>
    cases b with
    | none => exact nomatch h
    | some y =>
      have hxy : x = y := Nat.compare_eq_eq.mp h
      subst hxy
      rfl

theorem cmpTsDesc_symm (a b : Option Rat) : cmpTsDesc a b = (cmpTsDesc b a).swap := by
  cases a with
  | none => cases b <;> rfl
  | some x =>
    cases b with
    | none => rfl
    | some y => exact cmpRat_symm y x

theorem cmpTsDesc_lt_trans {a b c : Option Rat} (h1 : cmpTsDesc a b = Ordering.lt)
    (h2 : cmpTsDesc b c = Ordering.lt) : cmpTsDesc a c = Ordering.lt := by
  cases a with
  | none =>
    cases b with
    | none => exact nomatch h1
    | some y => exact nomatch h1
  | some x =>
    cases c with
    | none =>
      cases b with
      | none => exact nomatch h2
      | some y => rfl
    | some z =>
      cases b with
      | none => exact nomatch h2
      | some y =>
        exact cmpRat_eq_lt.mpr (lt_trans (cmpRat_eq_lt.mp h2) (cmpRat_eq_lt.mp h1))

theorem cmpTsDesc_eqL {a b : Option Rat} (h : cmpTsDesc a b = Ordering.eq) :
    ∀ c, cmpTsDesc a c = cmpTsDesc b c := by
  intro c
  cases a with
  | none =>
    cases b with
    | none => rfl
    | some y => exact nomatch h
  | some x =>
    cases b with
    | none => exact nomatch h
    | some y =>
      have hxy : y = x := cmpRat_eq_eq.mp h
      subst hxy
      rfl

theorem ordering_then_eq {o1 o2 : Ordering} :
    o1.then o2 = Ordering.eq ↔ o1 = Ordering.eq ∧ o2 = Ordering.eq := by
  cases o1 <;> cases o2 <;> simp [Ordering.then]

theorem ordering_then_lt {o1 o2 : Ordering} :
    o1.then o2 = Ordering.lt ↔
      o1 = Ordering.lt ∨ (o1 = Ordering.eq ∧ o2 = Ordering.lt) := by
  cases o1 <;> cases o2 <;> simp [Ordering.then]

/-- Derived substitution on the right from symmetry and left
substitution. -/
theorem cmp_eqR {α : Type} (cmp : α → α → Ordering)
    (hsymm : ∀ x y, cmp x y = (cmp y x).swap)
    (heqL : ∀ x y, cmp x y = Ordering.eq → ∀ z, cmp x z = cmp y z)
    {y z : α} (h : cmp y z = Ordering.eq) (x : α) : cmp x y = cmp x z := by
  have h1 := heqL y z h x
  rw [hsymm x y, hsymm x z, h1]

theorem cmpLe_total {α : Type} (cmp : α → α → Ordering)
    (hsymm : ∀ x y, cmp x y = (cmp y x).swap) (x y : α) :
    cmpLe cmp x y = true ∨ cmpLe cmp y x = true := by
  cases h : cmp y x with
  | lt =>
    right
    unfold cmpLe
    rw [h]
    rfl
  | eq =>
    right
    unfold cmpLe
    rw [h]
    rfl
  | gt =>
    left
    unfold cmpLe
    rw [hsymm x y, h]
    rfl

theorem cmpLe_trans {α : Type} (cmp : α → α → Ordering)
    (hsymm : ∀ x y, cmp x y = (cmp y x).swap)
    (hlt : ∀ x y z, cmp x y = Ordering.lt → cmp y z = Ordering.lt →
      cmp x z = Ordering.lt)
    (heqL : ∀ x y, cmp x y = Ordering.eq → ∀ z, cmp x z = cmp y z)
    {x y z : α} (h1 : cmpLe cmp x y = true) (h2 : cmpLe cmp y z = true) :
    cmpLe cmp x z = true := by
  unfold cmpLe at h1 h2 ⊢
  cases hxy : cmp x y with
  | gt => rw [hxy] at h1; cases h1
  | eq =>
    rw [heqL x y hxy z]
    exact h2
  | lt =>
    cases hyz : cmp y z with
    | gt => rw [hyz] at h2; cases h2
    | eq =>
      rw [← cmp_eqR cmp hsymm heqL hyz x, hxy]
      rfl
    | lt =>
      rw [hlt x y z hxy hyz]
      rfl

theorem mem_insertLe {α : Type} (le : α → α → Bool) (x : α) :
    ∀ (l : List α) (z : α), z ∈ insertLe le x l → z = x ∨ z ∈ l := by
  intro l
  induction l with
  | nil =>
    intro z hz
    simp only [insertLe, List.mem_singleton] at hz
    exact Or.inl hz
  | cons y ys ih =>
    intro z hz
    simp only [insertLe] at hz
    by_cases h : le x y = true
    · rw [if_pos h] at hz
      rcases List.mem_cons.mp hz with hz1 | hz1
      · exact Or.inl hz1
      · exact Or.inr hz1
    · rw [if_neg h] at hz
      rcases List.mem_cons.mp hz with hz1 | hz1
      · exact Or.inr (by simp [hz1])
      · rcases ih z hz1 with hz2 | hz2
        · exact Or.inl hz2
        · exact Or.inr (by simp [hz2])

theorem pairwise_insertLe {α : Type} (le : α → α → Bool)
    (htot : ∀ a b, le a b = true ∨ le b a = true)
    (htrans : ∀ a b c, le a b = true → le b c = true → le a c = true)
    (x : α) : ∀ l : List α, l.Pairwise (fun a b => le a b = true) →
      (insertLe le x l).Pairwise (fun a b => le a b = true) := by
  intro l
  induction l with
  | nil => intro _; simp [insertLe]
  | cons y ys ih =>
    intro hp
    rcases List.pairwise_cons.mp hp with ⟨hy, hys⟩
    simp only [insertLe]
    by_cases h : le x y = true
    · rw [if_pos h]
      refine List.pairwise_cons.mpr ⟨?_, hp⟩
      intro z hz
      rcases List.mem_cons.mp hz with hz | hz
      · subst hz; exact h
      · exact htrans x y z h (hy z hz)
    · rw [if_neg h]
      refine List.pairwise_cons.mpr ⟨?_, ih hys⟩
      intro z hz
      rcases mem_insertLe le x (ys) z hz with hz' | hz'
      · rcases htot x y with ht | ht
        · exact absurd ht h
        · rw [hz']
          exact ht
      · exact hy z hz'

theorem isortBy_pairwise {α : Type} (le : α → α → Bool)
    (htot : ∀ a b, le a b = true ∨ le b a = true)
    (htrans : ∀ a b c, le a b = true → le b c = true → le a c = true)
    (l : List α) : (isortBy le l).Pairwise (fun a b => le a b = true) := by
  induction l with
  | nil => simp [isortBy]
  | cons x xs ih => exact pairwise_insertLe le htot htrans x _ ih

theorem ordering_then_swap (o1 o2 : Ordering) :
    (o1.swap).then (o2.swap) = (o1.then o2).swap := by
  cases o1 <;> cases o2 <;> rfl

theorem subCmp_symm (recent : Bool) (x y : DocRow × Nat) :
    subCmp recent x y = (subCmp recent y x).swap := by
  unfold subCmp
  cases recent
  · simp only [Bool.false_eq_true, if_false]
    rw [cmpPosAsc_symm (some x.2) (some y.2), cmpTsDesc_symm x.1.event_ts y.1.event_ts]
    exact ordering_then_swap _ _
  · simp only [if_true]
    rw [cmpTsDesc_symm x.1.event_ts y.1.event_ts, cmpPosAsc_symm (some x.2) (some y.2)]
    exact ordering_then_swap _ _

theorem subCmp_lt_trans (recent : Bool) (x y z : DocRow × Nat)
    (h1 : subCmp recent x y = Ordering.lt) (h2 : subCmp recent y z = Ordering.lt) :
    subCmp recent x z = Ordering.lt := by
  unfold subCmp at h1 h2 ⊢
  cases recent <;>
    simp only [Bool.false_eq_true, if_false, if_true] at h1 h2 ⊢ <;>
    rw [ordering_then_lt] at h1 h2 ⊢
  · rcases h1 with h1 | ⟨h1e, h1l⟩ <;> rcases h2 with h2 | ⟨h2e, h2l⟩
    · exact Or.inl (cmpPosAsc_lt_trans h1 h2)
    · rw [cmp_eqR cmpPosAsc cmpPosAsc_symm (fun p q hpq => cmpPosAsc_eqL hpq) h2e (some x.2)] at h1
      exact Or.inl h1
    · rw [← cmpPosAsc_eqL h1e (some z.2)] at h2
      exact Or.inl h2
    · refine Or.inr ⟨?_, cmpTsDesc_lt_trans h1l h2l⟩
      rw [cmpPosAsc_eqL h1e (some z.2)]
      exact h2e
  · rcases h1 with h1 | ⟨h1e, h1l⟩ <;> rcases h2 with h2 | ⟨h2e, h2l⟩
    · exact Or.inl (cmpTsDesc_lt_trans h1 h2)
    · rw [cmp_eqR cmpTsDesc cmpTsDesc_symm (fun p q hpq => cmpTsDesc_eqL hpq) h2e
        x.1.event_ts] at h1
      exact Or.inl h1
    · rw [← cmpTsDesc_eqL h1e z.1.event_ts] at h2
      exact Or.inl h2
    · refine Or.inr ⟨?_, cmpPosAsc_lt_trans h1l h2l⟩
      rw [cmpTsDesc_eqL h1e z.1.event_ts]
      exact h2e

theorem subCmp_eqL (recent : Bool) (x y : DocRow × Nat)
    (h : subCmp recent x y = Ordering.eq) :
    ∀ z, subCmp recent x z = subCmp recent y z := by
  intro z
  unfold subCmp at h ⊢
  cases recent <;> simp only [Bool.false_eq_true, if_false, if_true] at h ⊢ <;>
    rw [ordering_then_eq] at h
  · rw [cmpPosAsc_eqL h.1 (some z.2), cmpTsDesc_eqL h.2 z.1.event_ts]
  · rw [cmpTsDesc_eqL h.1 z.1.event_ts, cmpPosAsc_eqL h.2 (some z.2)]

/-- C7: in substring mode the returned results are ordered by first
case-insensitive match position ascending (nulls last) then event
timestamp descending (nulls last); `sort=recent` flips the primary key
to timestamp-then-position (`subResCmp` spells out those two orders).
For the documents `1 ↦ zzz needle`, `2 ↦ needle zzz` with equal
timestamps, relevance order returns `["2", "1"]`; with document 2
bearing the later timestamp, `sort=recent` also returns `["2", "1"]`. -/
theorem C7_substring_order :
    (∀ (docs : List DocRow) (q : List Nat) (limit : Nat) (incA incI includeText : Bool)
        (recent : Bool),
      (substringScan docs q limit incA incI recent includeText).Pairwise
        (fun a b => cmpLe (subResCmp recent) a b = true)) ∧
    ((substringScan
        [{ doc_id := "1", session_id := none, file_path := "f", line_no := 1,
           event_ts := some 5, event_type := none, inner_type := none,
           role := some (str2cp "user"), kind := "message_content",
           text := str2cp "zzz needle", text_len := 10 },
         { doc_id := "2", session_id := none, file_path := "f", line_no := 2,
           event_ts := some 5, event_type := none, inner_type := none,
           role := some (str2cp "user"), kind := "message_content",
           text := str2cp "needle zzz", text_len := 10 }]
        (str2cp "needle") 10 false false false false).map SearchResult.doc_id
      = ["2", "1"]) ∧
    ((substringScan
        [{ doc_id := "1", session_id := none, file_path := "f", line_no := 1,
           event_ts := some 5, event_type := none, inner_type := none,
           role := some (str2cp "user"), kind := "message_content",
           text := str2cp "zzz needle", text_len := 10 },
         { doc_id := "2", session_id := none, file_path := "f", line_no := 2,
           event_ts := some 9, event_type := none, inner_type := none,
           role := some (str2cp "user"), kind := "message_content",
           text := str2cp "needle zzz", text_len := 10 }]
        (str2cp "needle") 10 false false true false).map SearchResult.doc_id
      = ["2", "1"]) := by
  refine ⟨?_, by decide, by decide⟩
  intro docs q limit incA incI includeText recent
  unfold substringScan
  rw [List.pairwise_map]
  have hsorted := isortBy_pairwise (cmpLe (subCmp recent))
    (fun a b => cmpLe_total _ (subCmp_symm recent) a b)
    (fun a b c h1 h2 => cmpLe_trans _ (subCmp_symm recent) (subCmp_lt_trans recent)
      (fun p q2 hpq => subCmp_eqL recent p q2 hpq) h1 h2)
    ((docs.filter (fun d =>
      roleClause incA d.role && kindClause incI d.kind &&
        likeMatch (37 :: (lowerL q ++ [37])) (lowerL d.text))).map
      (fun d => (d, instr (lowerL d.text) (lowerL q))))
  exact List.Pairwise.sublist (List.take_sublist _ _) hsorted

/-! ## Tail-pass lemmas -/

theorem totalLen_cons (l : List Nat) (ls : List (List Nat)) :
    totalLen (l :: ls) = l.length + totalLen ls := by
  simp [totalLen]

theorem totalLen_splitLines (bs : List Nat) :
    totalLen (splitLinesKeepNl bs) = bs.length := by
  induction bs with
  | nil => rfl
  | cons b rest ih =>
    by_cases h : b = 10
    · subst h
      show totalLen ([10] :: splitLinesKeepNl rest) = (10 :: rest).length
      rw [totalLen_cons, ih]
      show 1 + rest.length = rest.length + 1
      omega
    · have hstep : splitLinesKeepNl (b :: rest) =
          (match splitLinesKeepNl rest with
           | [] => [[b]]
           | l :: ls => (b :: l) :: ls) := by
        simp only [splitLinesKeepNl, if_neg h]
      rw [hstep]
      cases hsplit : splitLinesKeepNl rest with
      | nil =>
        rw [hsplit] at ih
        show totalLen [[b]] = (b :: rest).length
        have h0 : rest.length = 0 := by
          simpa [totalLen] using ih.symm
        simp [totalLen, h0]
      | cons l ls =>
        rw [hsplit, totalLen_cons] at ih
        show totalLen ((b :: l) :: ls) = (b :: rest).length
        rw [totalLen_cons]
        simp only [List.length_cons]
        omega

theorem goLines_mono (ls : List (List Nat)) :
    ∀ s : TailState,
      s.last_good_offset ≤ s.offset → s.last_good_line_no ≤ s.line_no →
      s.last_good_offset ≤ (goLines ls s).last_good_offset ∧
      s.last_good_line_no ≤ (goLines ls s).last_good_line_no ∧
      (goLines ls s).last_good_offset ≤ (goLines ls s).offset ∧
      (goLines ls s).last_good_line_no ≤ (goLines ls s).line_no := by
  induction ls with
  | nil =>
    intro s h1 h2
    rw [goLines_nil]
    exact ⟨le_rfl, le_rfl, h1, h2⟩
  | cons bline rest ih =>
    intro s h1 h2
    cases hd : utf8Decode false bline with
    | none =>
      have := utf8Decode_replace_isSome bline
      rw [hd] at this
      cases this
    | some cs =>
      by_cases hb : pyStrip cs = []
      · rw [goLines_cons_blank rest s hd hb]
        have hs := ih { s with
            lines_read := s.lines_read + 1
            offset := s.offset + bline.length
            line_no := s.line_no + 1
            last_good_offset := s.offset + bline.length
            last_good_line_no := s.line_no + 1 } le_rfl le_rfl
        refine ⟨le_trans ?_ hs.1, le_trans ?_ hs.2.1, hs.2.2.1, hs.2.2.2⟩
        · show s.last_good_offset ≤ s.offset + bline.length
          omega
        · show s.last_good_line_no ≤ s.line_no + 1
          omega
      · cases hp : jsonLoads (pyStrip cs) with
        | none =>
          rw [goLines_cons_fail rest s hd hb hp]
          exact ⟨le_rfl, le_rfl, le_trans h1 (Nat.le_add_right _ _),
            le_trans h2 (Nat.le_add_right _ _)⟩
        | some v =>
          cases v with
          | jobj kvs =>
            rw [goLines_cons_obj rest s hd hb hp]
            have hs := ih { s with
                    lines_read := s.lines_read + 1
                    offset := s.offset + bline.length
                    line_no := s.line_no + 1
                    last_good_offset := s.offset + bline.length
                    last_good_line_no := s.line_no + 1
                    lines_ingested := s.lines_ingested + 1
                    events := s.events ++ [(s.line_no + 1, kvs)] } le_rfl le_rfl
            refine ⟨le_trans ?_ hs.1, le_trans ?_ hs.2.1, hs.2.2.1, hs.2.2.2⟩
            · show s.last_good_offset ≤ s.offset + bline.length
              omega
            · show s.last_good_line_no ≤ s.line_no + 1
              omega
          | jnull =>
            rw [goLines_cons_nonobj rest s hd hb hp (fun kvs hc => by cases hc)]
            have hs := ih { s with
                    lines_read := s.lines_read + 1
                    offset := s.offset + bline.length
                    line_no := s.line_no + 1
                    last_good_offset := s.offset + bline.length
                    last_good_line_no := s.line_no + 1 } le_rfl le_rfl
            refine ⟨le_trans ?_ hs.1, le_trans ?_ hs.2.1, hs.2.2.1, hs.2.2.2⟩
            · show s.last_good_offset ≤ s.offset + bline.length
              omega
            · show s.last_good_line_no ≤ s.line_no + 1
              omega
          | jbool b =>
            rw [goLines_cons_nonobj rest s hd hb hp (fun kvs hc => by cases hc)]
            have hs := ih { s with
                    lines_read := s.lines_read + 1
                    offset := s.offset + bline.length
                    line_no := s.line_no + 1
                    last_good_offset := s.offset + bline.length
                    last_good_line_no := s.line_no + 1 } le_rfl le_rfl
            refine ⟨le_trans ?_ hs.1, le_trans ?_ hs.2.1, hs.2.2.1, hs.2.2.2⟩
            · show s.last_good_offset ≤ s.offset + bline.length
              omega
            · show s.last_good_line_no ≤ s.line_no + 1
              omega
          | jnum t =>
            rw [goLines_cons_nonobj rest s hd hb hp (fun kvs hc => by cases hc)]
            have hs := ih { s with
                    lines_read := s.lines_read + 1
                    offset := s.offset + bline.length
                    line_no := s.line_no + 1
                    last_good_offset := s.offset + bline.length
                    last_good_line_no := s.line_no + 1 } le_rfl le_rfl
            refine ⟨le_trans ?_ hs.1, le_trans ?_ hs.2.1, hs.2.2.1, hs.2.2.2⟩
            · show s.last_good_offset ≤ s.offset + bline.length
              omega
            · show s.last_good_line_no ≤ s.line_no + 1
              omega
          | jstr t =>
            rw [goLines_cons_nonobj rest s hd hb hp (fun kvs hc => by cases hc)]
            have hs := ih { s with
                    lines_read := s.lines_read + 1
                    offset := s.offset + bline.length
                    line_no := s.line_no + 1
                    last_good_offset := s.offset + bline.length
                    last_good_line_no := s.line_no + 1 } le_rfl le_rfl
            refine ⟨le_trans ?_ hs.1, le_trans ?_ hs.2.1, hs.2.2.1, hs.2.2.2⟩
            · show s.last_good_offset ≤ s.offset + bline.length
              omega
            · show s.last_good_line_no ≤ s.line_no + 1
              omega
          | jarr xs =>
            rw [goLines_cons_nonobj rest s hd hb hp (fun kvs hc => by cases hc)]
            have hs := ih { s with
                    lines_read := s.lines_read + 1
                    offset := s.offset + bline.length
                    line_no := s.line_no + 1
                    last_good_offset := s.offset + bline.length
                    last_good_line_no := s.line_no + 1 } le_rfl le_rfl
            refine ⟨le_trans ?_ hs.1, le_trans ?_ hs.2.1, hs.2.2.1, hs.2.2.2⟩
            · show s.last_good_offset ≤ s.offset + bline.length
              omega
            · show s.last_good_line_no ≤ s.line_no + 1
              omega

theorem goLines_offset_bound (ls : List (List Nat)) :
    ∀ s : TailState, (goLines ls s).offset ≤ s.offset + totalLen ls := by
  induction ls with
  | nil =>
    intro s
    rw [goLines_nil]
    simp [totalLen]
  | cons bline rest ih =>
    intro s
    rw [totalLen_cons, ← Nat.add_assoc]
    cases hd : utf8Decode false bline with
    | none =>
      have := utf8Decode_replace_isSome bline
      rw [hd] at this
      cases this
    | some cs =>
      by_cases hb : pyStrip cs = []
      · rw [goLines_cons_blank rest s hd hb]
        exact ih _
      · cases hp : jsonLoads (pyStrip cs) with
        | none =>
          rw [goLines_cons_fail rest s hd hb hp]
          exact Nat.le_add_right _ _
        | some v =>
          cases v with
          | jobj kvs =>
            rw [goLines_cons_obj rest s hd hb hp]
            exact ih _
          | jnull =>
            rw [goLines_cons_nonobj rest s hd hb hp (fun kvs hc => by cases hc)]
            exact ih _
          | jbool b =>
            rw [goLines_cons_nonobj rest s hd hb hp (fun kvs hc => by cases hc)]
            exact ih _
          | jnum t =>
            rw [goLines_cons_nonobj rest s hd hb hp (fun kvs hc => by cases hc)]
            exact ih _
          | jstr t =>
            rw [goLines_cons_nonobj rest s hd hb hp (fun kvs hc => by cases hc)]
            exact ih _
          | jarr xs =>
            rw [goLines_cons_nonobj rest s hd hb hp (fun kvs hc => by cases hc)]
            exact ih _

theorem tailPass_cursor_ge (content : List Nat) (off ln : Nat) :
    off ≤ (tailPass content off ln).last_good_offset ∧
    ln ≤ (tailPass content off ln).last_good_line_no := by
  have h := goLines_mono (splitLinesKeepNl (content.drop off)) (initTail off ln)
    le_rfl le_rfl
  exact ⟨h.1, h.2.1⟩

theorem tailPass_offset_le (content : List Nat) (off ln : Nat)
    (h : off ≤ content.length) :
    (tailPass content off ln).last_good_offset ≤ content.length := by
  have hm := goLines_mono (splitLinesKeepNl (content.drop off)) (initTail off ln)
    le_rfl le_rfl
  have hb := goLines_offset_bound (splitLinesKeepNl (content.drop off)) (initTail off ln)
  rw [totalLen_splitLines, List.length_drop] at hb
  have : (initTail off ln).offset = off := rfl
  rw [this] at hb
  exact le_trans hm.2.2.1 (by omega)

/-! ## Per-file processing lemmas -/

theorem ingestTail_session_files (incA incI : Bool) (now : Nat) (db : DB)
    (stats : RefreshStats) (f : FileState) (lo lln : Nat) (known : Option (List Nat)) :
    (ingestTail incA incI now db stats f lo lln known).1.session_files =
      aupsert f.path (ingestRow incA incI now db f lo lln known) db.session_files := rfl

theorem processFile_eq (incA incI : Bool) (now : Nat) (db : DB) (stats : RefreshStats)
    (f : FileState) :
    processFile incA incI now db stats f =
      (match alookup f.path db.session_files with
       | none => ingestTail incA incI now db stats f 0 0 none
       | some row =>
         let db1 := if f.content.length < row.last_offset then
             { db with docs := _delete_file_docs db.docs f.path } else db
         let lo := if f.content.length < row.last_offset then 0 else row.last_offset
         let lln := if f.content.length < row.last_offset then 0 else row.last_line_no
         if sameCheck row f then
           ({ db1 with
                session_files :=
                  aupsert f.path { row with last_seen_at := now } db1.session_files },
            stats)
         else ingestTail incA incI now db1 stats f lo lln row.session_id) := rfl

theorem sameCheck_false_of_trunc {row : FileRow} {f : FileState}
    (htr : f.content.length < row.last_offset) (hinv : row.last_offset ≤ row.size) :
    sameCheck row f = false := by
  unfold sameCheck
  have hne : (f.content.length == row.size) = false :=
    beq_eq_false_iff_ne.mpr (Nat.ne_of_lt (lt_of_lt_of_le htr hinv))
  rw [hne, Bool.false_and]

/-- C9: when `refresh` processes a previously seen file (with the
maintained invariant that its stored offset does not exceed its stored
size), the persisted cursor never moves backwards: outside a
truncation, the new `last_offset`/`last_line_no` are at least the
stored ones (the skip branch keeps them, the append branch resumes
from them and only advances); on truncation (current size strictly
below the stored offset) both are reset to zero before re-ingestion,
so the persisted cursor is exactly the tail pass from `(0, 0)`. -/
theorem C9_cursor_monotone (incA incI : Bool) (now : Nat) (db : DB)
    (stats : RefreshStats) (f : FileState) (row : FileRow)
    (hrow : alookup f.path db.session_files = some row)
    (hinv : row.last_offset ≤ row.size) :
    ∃ row', alookup f.path (processFile incA incI now db stats f).1.session_files =
        some row' ∧
      (if f.content.length < row.last_offset then
        row'.last_offset = (tailPass f.content 0 0).last_good_offset ∧
        row'.last_line_no = (tailPass f.content 0 0).last_good_line_no
       else
        row.last_offset ≤ row'.last_offset ∧ row.last_line_no ≤ row'.last_line_no) := by
  rw [processFile_eq, hrow]
  by_cases htr : f.content.length < row.last_offset
  · simp only [if_pos htr, sameCheck_false_of_trunc htr hinv, Bool.false_eq_true,
      if_false]
    refine ⟨ingestRow incA incI now { db with docs := _delete_file_docs db.docs f.path }
      f 0 0 row.session_id, ?_, ?_⟩
    · rw [ingestTail_session_files]
      exact alookup_aupsert _ _ _
    · exact ⟨rfl, rfl⟩
  · simp only [if_neg htr]
    by_cases hsk : sameCheck row f = true
    · simp only [hsk, if_true]
      refine ⟨{ row with last_seen_at := now }, alookup_aupsert _ _ _, ?_⟩
      exact ⟨le_rfl, le_rfl⟩
    · have hskf : sameCheck row f = false := by
        revert hsk
        cases sameCheck row f <;> simp
      simp only [hskf, Bool.false_eq_true, if_false]
      refine ⟨ingestRow incA incI now db f row.last_offset row.last_line_no
        row.session_id, ?_, ?_⟩
      · rw [ingestTail_session_files]
        exact alookup_aupsert _ _ _
      · exact ⟨(tailPass_cursor_ge f.content row.last_offset row.last_line_no).1,
          (tailPass_cursor_ge f.content row.last_offset row.last_line_no).2⟩

/-- Witness for C9: appending one full line to a one-line file moves
the cursor strictly forward from the stored position. -/
theorem C9_cursor_monotone_witness :
    ∃ row', alookup "a"
      (processFile true true 7
        { settings := [], sessions := [], docs := [],
          session_files := [("a",
            { session_id := none, size := 2, mtime := 1, mtime_epoch := some 1,
              last_offset := 2, last_line_no := 1, last_seen_at := 0 })] }
        { files_scanned := 1, files_updated := 0, lines_read := 0, lines_ingested := 0,
          docs_inserted := 0, sessions_upserted := 0, fts_available := false,
          fts_reindexed := false }
        { path := "a", content := [53, 10, 54, 10], mtime_epoch := 2 }).1.session_files =
        some row' ∧
      (if ([53, 10, 54, 10] : List Nat).length <
          ({ session_id := none, size := 2, mtime := 1, mtime_epoch := some 1,
             last_offset := 2, last_line_no := 1, last_seen_at := 0 } : FileRow).last_offset
       then
        row'.last_offset = (tailPass [53, 10, 54, 10] 0 0).last_good_offset ∧
        row'.last_line_no = (tailPass [53, 10, 54, 10] 0 0).last_good_line_no
       else
        ({ session_id := none, size := 2, mtime := 1, mtime_epoch := some 1,
           last_offset := 2, last_line_no := 1, last_seen_at := 0 } : FileRow).last_offset ≤
            row'.last_offset ∧
        ({ session_id := none, size := 2, mtime := 1, mtime_epoch := some 1,
           last_offset := 2, last_line_no := 1, last_seen_at := 0 } : FileRow).last_line_no ≤
            row'.last_line_no) :=
  C9_cursor_monotone true true 7
    { settings := [], sessions := [], docs := [],
      session_files := [("a",
        { session_id := none, size := 2, mtime := 1, mtime_epoch := some 1,
          last_offset := 2, last_line_no := 1, last_seen_at := 0 })] }
    { files_scanned := 1, files_updated := 0, lines_read := 0, lines_ingested := 0,
      docs_inserted := 0, sessions_upserted := 0, fts_available := false,
      fts_reindexed := false }
    { path := "a", content := [53, 10, 54, 10], mtime_epoch := 2 }
    { session_id := none, size := 2, mtime := 1, mtime_epoch := some 1,
      last_offset := 2, last_line_no := 1, last_seen_at := 0 }
    rfl (by decide)

/-! ## C4: truncation recovery -/

theorem mem_insertDocIgnore {docs : List DocRow} {x d : DocRow}
    (h : d ∈ insertDocIgnore docs x) : d ∈ docs ∨ d = x := by
  unfold insertDocIgnore at h
  by_cases hc : docs.any (fun y => y.doc_id == x.doc_id) = true
  · rw [if_pos hc] at h
    exact Or.inl h
  · rw [if_neg hc] at h
    rcases List.mem_append.mp h with h1 | h1
    · exact Or.inl h1
    · exact Or.inr (List.mem_singleton.mp h1)

theorem mem_insert_docs_aux (ds : List ExtractedDoc) :
    ∀ (acc : List DocRow × Nat) (d : DocRow),
      d ∈ (ds.foldl (fun acc d2 =>
        (insertDocIgnore acc.1 (docFromExtracted d2), acc.2 + 1)) acc).1 →
      d ∈ acc.1 ∨ d ∈ ds.map docFromExtracted := by
  induction ds with
  | nil =>
    intro acc d h
    exact Or.inl h
  | cons x ds ih =>
    intro acc d h
    rw [List.foldl_cons] at h
    rcases ih _ d h with h1 | h1
    · rcases mem_insertDocIgnore h1 with h2 | h2
      · exact Or.inl h2
      · exact Or.inr (by simp [h2])
    · exact Or.inr (by simp only [List.map_cons, List.mem_cons]; exact Or.inr h1)

theorem mem_insert_docs {docs : List DocRow} {ds : List ExtractedDoc} {d : DocRow}
    (h : d ∈ (_insert_docs docs ds).1) : d ∈ docs ∨ d ∈ ds.map docFromExtracted :=
  mem_insert_docs_aux ds (docs, 0) d h

theorem mem_delete_file_docs {docs : List DocRow} {p : String} {d : DocRow}
    (h : d ∈ _delete_file_docs docs p) : d.file_path ≠ p := by
  unfold _delete_file_docs at h
  have h2 := List.of_mem_filter h
  simpa using h2

/-- C4: for a previously ingested file whose current size is strictly
below the stored offset (under the maintained invariant that the
stored offset does not exceed the stored size), `refresh` takes the
truncation path: (a) the whole per-file step equals re-ingestion from
offset/line zero over the store with that file's documents deleted;
(b) the persisted cursor is exactly the tail pass from `(0, 0)`; and
(c) every document of the resulting store belonging to this file comes
from that re-ingestion from the start. -/
theorem C4_truncation (incA incI : Bool) (now : Nat) (db : DB) (stats : RefreshStats)
    (f : FileState) (row : FileRow)
    (hrow : alookup f.path db.session_files = some row)
    (htr : f.content.length < row.last_offset)
    (hinv : row.last_offset ≤ row.size) :
    processFile incA incI now db stats f =
      ingestTail incA incI now { db with docs := _delete_file_docs db.docs f.path }
        stats f 0 0 row.session_id ∧
    (∃ row', alookup f.path (processFile incA incI now db stats f).1.session_files =
        some row' ∧
      row'.last_offset = (tailPass f.content 0 0).last_good_offset ∧
      row'.last_line_no = (tailPass f.content 0 0).last_good_line_no) ∧
    (∀ d ∈ (processFile incA incI now db stats f).1.docs,
      d.file_path = f.path →
      d ∈ (processEvents incA incI f.path (tailPass f.content 0 0).events row.session_id
            db.sessions).2.1.map docFromExtracted) := by
  have heq : processFile incA incI now db stats f =
      ingestTail incA incI now { db with docs := _delete_file_docs db.docs f.path }
        stats f 0 0 row.session_id := by
    rw [processFile_eq, hrow]
    simp only [if_pos htr, sameCheck_false_of_trunc htr hinv, Bool.false_eq_true,
      if_false]
  refine ⟨heq, ?_, ?_⟩
  · rw [heq, ingestTail_session_files]
    exact ⟨ingestRow incA incI now { db with docs := _delete_file_docs db.docs f.path }
      f 0 0 row.session_id, alookup_aupsert _ _ _, rfl, rfl⟩
  · intro d hd hp
    rw [heq] at hd
    have hd2 : d ∈ (_insert_docs (_delete_file_docs db.docs f.path)
        (processEvents incA incI f.path (tailPass f.content 0 0).events row.session_id
          db.sessions).2.1).1 := hd
    rcases mem_insert_docs hd2 with h1 | h1
    · exact absurd hp (mem_delete_file_docs h1)
    · exact h1

/-- Witness for C4: a two-byte file against a stored offset of 5. -/
theorem C4_truncation_witness :
    processFile true true 7
      { settings := [], sessions := [], docs := [],
        session_files := [("a",
          { session_id := none, size := 5, mtime := 1, mtime_epoch := some 1,
            last_offset := 5, last_line_no := 1, last_seen_at := 0 })] }
      { files_scanned := 1, files_updated := 0, lines_read := 0, lines_ingested := 0,
        docs_inserted := 0, sessions_upserted := 0, fts_available := false,
        fts_reindexed := false }
      { path := "a", content := [53, 10], mtime_epoch := 2 } =
      ingestTail true true 7
        { settings := [], sessions := [], docs := _delete_file_docs [] "a",
          session_files := [("a",
            { session_id := none, size := 5, mtime := 1, mtime_epoch := some 1,
              last_offset := 5, last_line_no := 1, last_seen_at := 0 })] }
        { files_scanned := 1, files_updated := 0, lines_read := 0, lines_ingested := 0,
          docs_inserted := 0, sessions_upserted := 0, fts_available := false,
          fts_reindexed := false }
        { path := "a", content := [53, 10], mtime_epoch := 2 } 0 0 none :=
  (C4_truncation true true 7
    { settings := [], sessions := [], docs := [],
      session_files := [("a",
        { session_id := none, size := 5, mtime := 1, mtime_epoch := some 1,
          last_offset := 5, last_line_no := 1, last_seen_at := 0 })] }
    { files_scanned := 1, files_updated := 0, lines_read := 0, lines_ingested := 0,
      docs_inserted := 0, sessions_upserted := 0, fts_available := false,
      fts_reindexed := false }
    { path := "a", content := [53, 10], mtime_epoch := 2 }
    { session_id := none, size := 5, mtime := 1, mtime_epoch := some 1,
      last_offset := 5, last_line_no := 1, last_seen_at := 0 }
    rfl (by decide) (by decide)).1

theorem goLines_append_ok (a : List (List Nat)) :
    ∀ (b : List (List Nat)) (s : TailState), (∀ l ∈ a, okLine l = true) →
      goLines (a ++ b) s = goLines b (goLines a s) := by
  induction a with
  | nil =>
    intro b s _
    rw [List.nil_append, goLines_nil]
  | cons bline rest ih =>
    intro b s hok
    have hbl := hok bline (by simp)
    have hrest : ∀ l ∈ rest, okLine l = true := fun l hl => hok l (by simp [hl])
    unfold okLine at hbl
    cases hd : utf8Decode false bline with
    | none =>
      rw [hd] at hbl
      cases hbl
    | some cs =>
      rw [hd] at hbl
      have hbl2 : ((pyStrip cs).isEmpty || (jsonLoads (pyStrip cs)).isSome) = true := hbl
      by_cases hb : pyStrip cs = []
      · rw [List.cons_append, goLines_cons_blank (rest ++ b) s hd hb,
          goLines_cons_blank rest s hd hb]
        exact ih b _ hrest
      · cases hp : jsonLoads (pyStrip cs) with
        | none =>
          rw [hp] at hbl2
          simp [List.isEmpty_iff, hb] at hbl2
        | some v =>
          cases v with
          | jobj kvs =>
            rw [List.cons_append, goLines_cons_obj (rest ++ b) s hd hb hp,
              goLines_cons_obj rest s hd hb hp]
            exact ih b _ hrest
          | jnull =>
            rw [List.cons_append,
              goLines_cons_nonobj (rest ++ b) s hd hb hp (fun kvs hc => by cases hc),
              goLines_cons_nonobj rest s hd hb hp (fun kvs hc => by cases hc)]
            exact ih b _ hrest
          | jbool bv =>
            rw [List.cons_append,
              goLines_cons_nonobj (rest ++ b) s hd hb hp (fun kvs hc => by cases hc),
              goLines_cons_nonobj rest s hd hb hp (fun kvs hc => by cases hc)]
            exact ih b _ hrest
          | jnum t =>
            rw [List.cons_append,
              goLines_cons_nonobj (rest ++ b) s hd hb hp (fun kvs hc => by cases hc),
              goLines_cons_nonobj rest s hd hb hp (fun kvs hc => by cases hc)]
            exact ih b _ hrest
          | jstr t =>
            rw [List.cons_append,
              goLines_cons_nonobj (rest ++ b) s hd hb hp (fun kvs hc => by cases hc),
              goLines_cons_nonobj rest s hd hb hp (fun kvs hc => by cases hc)]
            exact ih b _ hrest
          | jarr xs =>
            rw [List.cons_append,
              goLines_cons_nonobj (rest ++ b) s hd hb hp (fun kvs hc => by cases hc),
              goLines_cons_nonobj rest s hd hb hp (fun kvs hc => by cases hc)]
            exact ih b _ hrest

theorem goLines_ok_state (ls : List (List Nat)) :
    ∀ s : TailState, s.last_good_offset = s.offset → s.last_good_line_no = s.line_no →
      (∀ l ∈ ls, okLine l = true) →
      (goLines ls s).last_good_offset = s.offset + totalLen ls ∧
      (goLines ls s).last_good_line_no = s.line_no + ls.length ∧
      (goLines ls s).offset = s.offset + totalLen ls ∧
      (goLines ls s).line_no = s.line_no + ls.length ∧
      ∀ e ∈ (goLines ls s).events, e ∈ s.events ∨
        (s.line_no < e.1 ∧ e.1 ≤ s.line_no + ls.length) := by
  induction ls with
  | nil =>
    intro s hg1 hg2 _
    rw [goLines_nil]
    refine ⟨by simp [totalLen, hg1], by simp [hg2], by simp [totalLen], by simp, ?_⟩
    intro e he
    exact Or.inl he
  | cons bline rest ih =>
    intro s _ _ hok
    have hbl := hok bline (by simp)
    have hrest : ∀ l ∈ rest, okLine l = true := fun l hl => hok l (by simp [hl])
    unfold okLine at hbl
    cases hd : utf8Decode false bline with
    | none =>
      rw [hd] at hbl
      cases hbl
    | some cs =>
      rw [hd] at hbl
      have hbl2 : ((pyStrip cs).isEmpty || (jsonLoads (pyStrip cs)).isSome) = true := hbl
      by_cases hb : pyStrip cs = []
      · rw [goLines_cons_blank rest s hd hb]
        have hs := ih { s with
            lines_read := s.lines_read + 1
            offset := s.offset + bline.length
            line_no := s.line_no + 1
            last_good_offset := s.offset + bline.length
            last_good_line_no := s.line_no + 1 } rfl rfl hrest
        refine ⟨?_, ?_, ?_, ?_, ?_⟩
        · rw [hs.1]
          show s.offset + bline.length + totalLen rest = s.offset + totalLen (bline :: rest)
          rw [totalLen_cons]
          omega
        · rw [hs.2.1]
          show s.line_no + 1 + rest.length = s.line_no + (bline :: rest).length
          rw [List.length_cons]
          omega
        · rw [hs.2.2.1]
          show s.offset + bline.length + totalLen rest = s.offset + totalLen (bline :: rest)
          rw [totalLen_cons]
          omega
        · rw [hs.2.2.2.1]
          show s.line_no + 1 + rest.length = s.line_no + (bline :: rest).length
          rw [List.length_cons]
          omega
        · intro e he
          rcases hs.2.2.2.2 e he with h1 | h1
          · exact Or.inl h1
          · have hb1 : s.line_no + 1 < e.1 := h1.1
            have hb2 : e.1 ≤ s.line_no + 1 + rest.length := h1.2
            refine Or.inr ⟨by omega, ?_⟩
            rw [List.length_cons]
            omega
      · cases hp : jsonLoads (pyStrip cs) with
        | none =>
          rw [hp] at hbl2
          simp [List.isEmpty_iff, hb] at hbl2
        | some v =>
          cases v with
          | jobj kvs =>
            rw [goLines_cons_obj rest s hd hb hp]
            have hs := ih { s with
                lines_read := s.lines_read + 1
                offset := s.offset + bline.length
                line_no := s.line_no + 1
                last_good_offset := s.offset + bline.length
                last_good_line_no := s.line_no + 1
                lines_ingested := s.lines_ingested + 1
                events := s.events ++ [(s.line_no + 1, kvs)] } rfl rfl hrest
            refine ⟨?_, ?_, ?_, ?_, ?_⟩
            · rw [hs.1]
              show s.offset + bline.length + totalLen rest = s.offset + totalLen (bline :: rest)
              rw [totalLen_cons]
              omega
            · rw [hs.2.1]
              show s.line_no + 1 + rest.length = s.line_no + (bline :: rest).length
              rw [List.length_cons]
              omega
            · rw [hs.2.2.1]
              show s.offset + bline.length + totalLen rest = s.offset + totalLen (bline :: rest)
              rw [totalLen_cons]
              omega
            · rw [hs.2.2.2.1]
              show s.line_no + 1 + rest.length = s.line_no + (bline :: rest).length
              rw [List.length_cons]
              omega
            · intro e he
              rcases hs.2.2.2.2 e he with h1 | h1
              · have h1b : e ∈ s.events ++ [(s.line_no + 1, kvs)] := h1
                rcases List.mem_append.mp h1b with h2 | h2
                · exact Or.inl h2
                · have he1 : e.1 = s.line_no + 1 := by rw [List.mem_singleton.mp h2]
                  refine Or.inr ⟨?_, ?_⟩
                  · rw [he1]
                    omega
                  · rw [he1, List.length_cons]
                    omega
              · have hb1 : s.line_no + 1 < e.1 := h1.1
                have hb2 : e.1 ≤ s.line_no + 1 + rest.length := h1.2
                refine Or.inr ⟨by omega, ?_⟩
                rw [List.length_cons]
                omega
          | jnull =>
            rw [goLines_cons_nonobj rest s hd hb hp (fun kvs hc => by cases hc)]
            have hs := ih { s with
                lines_read := s.lines_read + 1
                offset := s.offset + bline.length
                line_no := s.line_no + 1
                last_good_offset := s.offset + bline.length
                last_good_line_no := s.line_no + 1 } rfl rfl hrest
            refine ⟨?_, ?_, ?_, ?_, ?_⟩
            · rw [hs.1]
              show s.offset + bline.length + totalLen rest = s.offset + totalLen (bline :: rest)
              rw [totalLen_cons]
              omega
            · rw [hs.2.1]
              show s.line_no + 1 + rest.length = s.line_no + (bline :: rest).length
              rw [List.length_cons]
              omega
            · rw [hs.2.2.1]
              show s.offset + bline.length + totalLen rest = s.offset + totalLen (bline :: rest)
              rw [totalLen_cons]
              omega
            · rw [hs.2.2.2.1]
              show s.line_no + 1 + rest.length = s.line_no + (bline :: rest).length
              rw [List.length_cons]
              omega
            · intro e he
              rcases hs.2.2.2.2 e he with h1 | h1
              · exact Or.inl h1
              · have hb1 : s.line_no + 1 < e.1 := h1.1
                have hb2 : e.1 ≤ s.line_no + 1 + rest.length := h1.2
                refine Or.inr ⟨by omega, ?_⟩
                rw [List.length_cons]
                omega
          | jbool bv =>
            rw [goLines_cons_nonobj rest s hd hb hp (fun kvs hc => by cases hc)]
            have hs := ih { s with
                lines_read := s.lines_read + 1
                offset := s.offset + bline.length
                line_no := s.line_no + 1
                last_good_offset := s.offset + bline.length
                last_good_line_no := s.line_no + 1 } rfl rfl hrest
            refine ⟨?_, ?_, ?_, ?_, ?_⟩
            · rw [hs.1]
              show s.offset + bline.length + totalLen rest = s.offset + totalLen (bline :: rest)
              rw [totalLen_cons]
              omega
            · rw [hs.2.1]
              show s.line_no + 1 + rest.length = s.line_no + (bline :: rest).length
              rw [List.length_cons]
              omega
            · rw [hs.2.2.1]
              show s.offset + bline.length + totalLen rest = s.offset + totalLen (bline :: rest)
              rw [totalLen_cons]
              omega
            · rw [hs.2.2.2.1]
              show s.line_no + 1 + rest.length = s.line_no + (bline :: rest).length
              rw [List.length_cons]
              omega
            · intro e he
              rcases hs.2.2.2.2 e he with h1 | h1
              · exact Or.inl h1
              · have hb1 : s.line_no + 1 < e.1 := h1.1
                have hb2 : e.1 ≤ s.line_no + 1 + rest.length := h1.2
                refine Or.inr ⟨by omega, ?_⟩
                rw [List.length_cons]
                omega
          | jnum t =>
            rw [goLines_cons_nonobj rest s hd hb hp (fun kvs hc => by cases hc)]
            have hs := ih { s with
                lines_read := s.lines_read + 1
                offset := s.offset + bline.length
                line_no := s.line_no + 1
                last_good_offset := s.offset + bline.length
                last_good_line_no := s.line_no + 1 } rfl rfl hrest
            refine ⟨?_, ?_, ?_, ?_, ?_⟩
            · rw [hs.1]
              show s.offset + bline.length + totalLen rest = s.offset + totalLen (bline :: rest)
              rw [totalLen_cons]
              omega
            · rw [hs.2.1]
              show s.line_no + 1 + rest.length = s.line_no + (bline :: rest).length
              rw [List.length_cons]
              omega
            · rw [hs.2.2.1]
              show s.offset + bline.length + totalLen rest = s.offset + totalLen (bline :: rest)
              rw [totalLen_cons]
              omega
            · rw [hs.2.2.2.1]
              show s.line_no + 1 + rest.length = s.line_no + (bline :: rest).length
              rw [List.length_cons]
              omega
            · intro e he
              rcases hs.2.2.2.2 e he with h1 | h1
              · exact Or.inl h1
              · have hb1 : s.line_no + 1 < e.1 := h1.1
                have hb2 : e.1 ≤ s.line_no + 1 + rest.length := h1.2
                refine Or.inr ⟨by omega, ?_⟩
                rw [List.length_cons]
                omega
          | jstr t =>
            rw [goLines_cons_nonobj rest s hd hb hp (fun kvs hc => by cases hc)]
            have hs := ih { s with
                lines_read := s.lines_read + 1
                offset := s.offset + bline.length
                line_no := s.line_no + 1
                last_good_offset := s.offset + bline.length
                last_good_line_no := s.line_no + 1 } rfl rfl hrest
            refine ⟨?_, ?_, ?_, ?_, ?_⟩
            · rw [hs.1]
              show s.offset + bline.length + totalLen rest = s.offset + totalLen (bline :: rest)
              rw [totalLen_cons]
              omega
            · rw [hs.2.1]
              show s.line_no + 1 + rest.length = s.line_no + (bline :: rest).length
              rw [List.length_cons]
              omega
            · rw [hs.2.2.1]
              show s.offset + bline.length + totalLen rest = s.offset + totalLen (bline :: rest)
              rw [totalLen_cons]
              omega
            · rw [hs.2.2.2.1]
              show s.line_no + 1 + rest.length = s.line_no + (bline :: rest).length
              rw [List.length_cons]
              omega
            · intro e he
              rcases hs.2.2.2.2 e he with h1 | h1
              · exact Or.inl h1
              · have hb1 : s.line_no + 1 < e.1 := h1.1
                have hb2 : e.1 ≤ s.line_no + 1 + rest.length := h1.2
                refine Or.inr ⟨by omega, ?_⟩
                rw [List.length_cons]
                omega
          | jarr xs =>
            rw [goLines_cons_nonobj rest s hd hb hp (fun kvs hc => by cases hc)]
            have hs := ih { s with
                lines_read := s.lines_read + 1
                offset := s.offset + bline.length
                line_no := s.line_no + 1
                last_good_offset := s.offset + bline.length
                last_good_line_no := s.line_no + 1 } rfl rfl hrest
            refine ⟨?_, ?_, ?_, ?_, ?_⟩
            · rw [hs.1]
              show s.offset + bline.length + totalLen rest = s.offset + totalLen (bline :: rest)
              rw [totalLen_cons]
              omega
            · rw [hs.2.1]
              show s.line_no + 1 + rest.length = s.line_no + (bline :: rest).length
              rw [List.length_cons]
              omega
            · rw [hs.2.2.1]
              show s.offset + bline.length + totalLen rest = s.offset + totalLen (bline :: rest)
              rw [totalLen_cons]
              omega
            · rw [hs.2.2.2.1]
              show s.line_no + 1 + rest.length = s.line_no + (bline :: rest).length
              rw [List.length_cons]
              omega
            · intro e he
              rcases hs.2.2.2.2 e he with h1 | h1
              · exact Or.inl h1
              · have hb1 : s.line_no + 1 < e.1 := h1.1
                have hb2 : e.1 ≤ s.line_no + 1 + rest.length := h1.2
                refine Or.inr ⟨by omega, ?_⟩
                rw [List.length_cons]
                omega

theorem splitLines_single_nl {line : List Nat} (h : 10 ∉ line) :
    splitLinesKeepNl (line ++ [10]) = [line ++ [10]] := by
  induction line with
  | nil => rfl
  | cons b rest ih =>
    have hb : b ≠ 10 := fun hc => h (by simp [hc])
    have hrest : 10 ∉ rest := fun hc => h (by simp [hc])
    rw [List.cons_append]
    show (if b = 10 then [b] :: splitLinesKeepNl (rest ++ [10])
      else
        match splitLinesKeepNl (rest ++ [10]) with
        | [] => [[b]]
        | l :: ls => (b :: l) :: ls) = [b :: (rest ++ [10])]
    rw [if_neg hb, ih hrest]

/-! ## C1: partial final lines -/

/-- C1 counterexample: a file whose only line is a complete JSON
object record with **no trailing newline** (bytes 123,34,97,34,58,49,125).
The claim classifies a non-newline-terminated final line as truncated
and requires the cursor to stay at the end of the last complete valid
record — offset 0 here, with the record left for a later run — but
`readline` returns the unterminated tail, it parses as JSON, and the
pass ingests the record immediately and advances the persisted cursor
past it to the end of the file (offset 7, line 1). -/
theorem C1_counterexample :
    (tailPass [123, 34, 97, 34, 58, 49, 125] 0 0).last_good_offset = 7 ∧
    (tailPass [123, 34, 97, 34, 58, 49, 125] 0 0).last_good_line_no = 1 ∧
    (tailPass [123, 34, 97, 34, 58, 49, 125] 0 0).lines_ingested = 1 := by
  decide

/-- C1 (amended): when the unread region splits into lines that all
decode and (blank or) parse, followed by a final line that decodes but
fails JSON parsing (a truncated/partial write), the tail pass holds the
persisted cursor at the *start* of that failing line — byte offset
`totalLen good`, line number `good.length` — and records no event past
line `good.length`; a subsequent pass resuming from that cursor whose
unread region is exactly the completed line, now parsing as a JSON
object `kvs`, ingests exactly that one record, once, as line
`good.length + 1`.  (A non-newline-terminated final line that already
parses as valid JSON is instead ingested immediately with the cursor
advancing past it — see the counterexample.) -/
theorem C1_partial_line (content content2 : List Nat) (good : List (List Nat))
    (bad cline dcs : List Nat) (kvs : PyDict)
    (h1 : splitLinesKeepNl content = good ++ [bad])
    (h2 : ∀ l ∈ good, okLine l = true)
    (h3 : badLine bad = true)
    (h4 : splitLinesKeepNl (content2.drop (totalLen good)) = [cline])
    (h5 : utf8Decode false cline = some dcs)
    (h6 : pyStrip dcs ≠ [])
    (h7 : jsonLoads (pyStrip dcs) = some (Json.jobj kvs)) :
    (tailPass content 0 0).last_good_offset = totalLen good ∧
    (tailPass content 0 0).last_good_line_no = good.length ∧
    (∀ e ∈ (tailPass content 0 0).events, e.1 ≤ good.length) ∧
    (tailPass content2 (totalLen good) good.length).events
      = [(good.length + 1, kvs)] ∧
    (tailPass content2 (totalLen good) good.length).lines_ingested = 1 := by
  unfold tailPass
  rw [List.drop_zero, h1, h4,
    goLines_append_ok good [bad] (initTail 0 0) h2,
    goLines_cons_obj [] (initTail (totalLen good) good.length) h5 h6 h7, goLines_nil]
  unfold badLine at h3
  cases hd : utf8Decode false bad with
  | none =>
    rw [hd] at h3
    cases h3
  | some cs =>
    rw [hd] at h3
    have h3b : (!(pyStrip cs).isEmpty && (jsonLoads (pyStrip cs)).isNone) = true := h3
    have hbne : pyStrip cs ≠ [] := by
      intro hc0
      rw [hc0] at h3b
      simp at h3b
    have hpn : jsonLoads (pyStrip cs) = none := by
      cases hj : jsonLoads (pyStrip cs) with
      | none => rfl
      | some v =>
        rw [hj] at h3b
        simp at h3b
    rw [goLines_cons_fail [] (goLines good (initTail 0 0)) hd hbne hpn]
    obtain ⟨ha, hb, _, _, he⟩ := goLines_ok_state good (initTail 0 0) rfl rfl h2
    refine ⟨?_, ?_, ?_, rfl, rfl⟩
    · show (goLines good (initTail 0 0)).last_good_offset = totalLen good
      rw [ha]
      show 0 + totalLen good = totalLen good
      omega
    · show (goLines good (initTail 0 0)).last_good_line_no = good.length
      rw [hb]
      show 0 + good.length = good.length
      omega
    · intro e hme
      have hme2 : e ∈ (goLines good (initTail 0 0)).events := hme
      rcases he e hme2 with h0 | h0
      · simp [initTail] at h0
      · have hx : e.1 ≤ 0 + good.length := h0.2
        omega

theorem C1_partial_line_witness :
    (tailPass [53, 10, 123] 0 0).last_good_offset = totalLen [[53, 10]] ∧
    (tailPass [53, 10, 123] 0 0).last_good_line_no = [[53, 10]].length ∧
    (∀ e ∈ (tailPass [53, 10, 123] 0 0).events, e.1 ≤ [[53, 10]].length) ∧
    (tailPass [53, 10, 123, 125, 10] (totalLen [[53, 10]]) [[53, 10]].length).events
      = [([[53, 10]].length + 1, ([] : PyDict))] ∧
    (tailPass [53, 10, 123, 125, 10] (totalLen [[53, 10]])
      [[53, 10]].length).lines_ingested = 1 :=
  C1_partial_line [53, 10, 123] [53, 10, 123, 125, 10] [[53, 10]] [123]
    [123, 125, 10] [123, 125, 10] [] (by decide) (by decide) (by decide)
    (by decide) (by decide) (by decide) rfl

/-! ## C3: a second run over unchanged files is a no-op -/

theorem mtimeClose_iff (a b : Rat) :
    mtimeClose a b = true ↔ |a - b| < (1 : Rat) / 2000 := by
  rw [mtimeClose, decide_eq_true_eq]
  have hda : (0 : ℚ) < (a.den : ℚ) := by exact_mod_cast a.pos
  have hdb : (0 : ℚ) < (b.den : ℚ) := by exact_mod_cast b.pos
  have hD : (0 : ℚ) < ((a.den * b.den : ℕ) : ℚ) := by
    push_cast
    exact mul_pos hda hdb
  have ha2 : (a.num : ℚ) = a * (a.den : ℚ) :=
    (div_eq_iff (ne_of_gt hda)).mp (Rat.num_div_den a)
  have hb2 : (b.num : ℚ) = b * (b.den : ℚ) :=
    (div_eq_iff (ne_of_gt hdb)).mp (Rat.num_div_den b)
  have key : a - b = ((a.num * (b.den : Int) - b.num * (a.den : Int) : ℤ) : ℚ)
      / ((a.den * b.den : ℕ) : ℚ) := by
    rw [eq_div_iff (ne_of_gt hD)]
    push_cast
    linear_combination (-(b.den : ℚ)) * ha2 + (a.den : ℚ) * hb2
  rw [key, abs_div, abs_of_pos hD,
    div_lt_div_iff₀ hD (by norm_num : (0 : ℚ) < 2000), one_mul,
    ← Int.cast_abs, Int.abs_eq_natAbs, mul_comm _ (2000 : ℚ)]
  exact_mod_cast Iff.rfl

theorem sameCheck_ingestRow (incA incI : Bool) (now : Nat) (db : DB) (f : FileState)
    (lo lln : Nat) (known : Option (List Nat)) :
    sameCheck (ingestRow incA incI now db f lo lln known) f = true := by
  show ((f.content.length == f.content.length) &&
    mtimeClose f.mtime_epoch f.mtime_epoch) = true
  rw [beq_self_eq_true, Bool.true_and]
  unfold mtimeClose
  rw [decide_eq_true_eq, sub_self, Int.natAbs_zero, Nat.mul_zero]
  exact Nat.mul_pos f.mtime_epoch.pos f.mtime_epoch.pos

theorem ingestRow_within (incA incI : Bool) (now : Nat) (db : DB) (f : FileState)
    (lo lln : Nat) (known : Option (List Nat)) (h : lo ≤ f.content.length) :
    (ingestRow incA incI now db f lo lln known).last_offset ≤
      (ingestRow incA incI now db f lo lln known).size := by
  show (tailPass f.content lo lln).last_good_offset ≤ f.content.length
  exact tailPass_offset_le f.content lo lln h

theorem sameCheck_bump {row : FileRow} {f : FileState} (now : Nat)
    (h : sameCheck row f = true) :
    sameCheck { row with last_seen_at := now } f = true := h

theorem processFile_establish (incA incI : Bool) (now : Nat) (db : DB)
    (stats : RefreshStats) (f : FileState)
    (hinv : ∀ r, alookup f.path db.session_files = some r → r.last_offset ≤ r.size) :
    ∃ newRow, (processFile incA incI now db stats f).1.session_files =
        aupsert f.path newRow db.session_files ∧
      sameCheck newRow f = true ∧ newRow.last_offset ≤ newRow.size := by
  rw [processFile_eq]
  cases hrow : alookup f.path db.session_files with
  | none =>
    exact ⟨ingestRow incA incI now db f 0 0 none,
      ingestTail_session_files incA incI now db stats f 0 0 none,
      sameCheck_ingestRow incA incI now db f 0 0 none,
      ingestRow_within incA incI now db f 0 0 none (Nat.zero_le _)⟩
  | some row =>
    by_cases htr : f.content.length < row.last_offset
    · have hscf : sameCheck row f = false :=
        sameCheck_false_of_trunc htr (hinv row hrow)
      simp only [if_pos htr, hscf, Bool.false_eq_true, if_false]
      exact ⟨ingestRow incA incI now
          { db with docs := _delete_file_docs db.docs f.path } f 0 0 row.session_id,
        ingestTail_session_files incA incI now _ stats f 0 0 row.session_id,
        sameCheck_ingestRow incA incI now _ f 0 0 row.session_id,
        ingestRow_within incA incI now _ f 0 0 row.session_id (Nat.zero_le _)⟩
    · simp only [if_neg htr]
      by_cases hsk : sameCheck row f = true
      · simp only [hsk, if_true]
        exact ⟨{ row with last_seen_at := now }, rfl,
          sameCheck_bump now hsk, hinv row hrow⟩
      · have hskf : sameCheck row f = false := by
          revert hsk
          cases sameCheck row f <;> simp
        simp only [hskf, Bool.false_eq_true, if_false]
        exact ⟨ingestRow incA incI now db f row.last_offset row.last_line_no
            row.session_id,
          ingestTail_session_files incA incI now db stats f row.last_offset
            row.last_line_no row.session_id,
          sameCheck_ingestRow incA incI now db f row.last_offset row.last_line_no
            row.session_id,
          ingestRow_within incA incI now db f row.last_offset row.last_line_no
            row.session_id (Nat.le_of_not_lt htr)⟩

theorem processFile_skip (incA incI : Bool) (now : Nat) (db : DB) (stats : RefreshStats)
    (f : FileState) (r : FileRow)
    (hrow : alookup f.path db.session_files = some r)
    (hsame : sameCheck r f = true)
    (hle : r.last_offset ≤ r.size) :
    processFile incA incI now db stats f =
      ({ db with session_files :=
          aupsert f.path { r with last_seen_at := now } db.session_files }, stats) := by
  have hsz : f.content.length = r.size := by
    have h2 := hsame
    unfold sameCheck at h2
    rw [Bool.and_eq_true] at h2
    exact beq_iff_eq.mp h2.1
  have hnt : ¬ f.content.length < r.last_offset := by omega
  rw [processFile_eq, hrow]
  simp only [if_neg hnt, hsame, if_true]

theorem refreshTxBody_cons_nofault (incA incI : Bool) (now : Nat) (f : FileState)
    (rest : List FileState) (k : Nat) (db : DB) (stats : RefreshStats) :
    refreshTxBody (fun _ => false) incA incI now (f :: rest) k db stats =
      refreshTxBody (fun _ => false) incA incI now rest (k + 1)
        (processFile incA incI now db stats f).1
        (processFile incA incI now db stats f).2 := rfl

theorem refreshTx_run1 (incA incI : Bool) (now : Nat) (files : List FileState) :
    ∀ (k : Nat) (db : DB) (stats : RefreshStats),
      (files.map FileState.path).Nodup → cursorWithinSize db →
      ∃ db2 stats2,
        refreshTxBody (fun _ => false) incA incI now files k db stats
          = some (db2, stats2) ∧
        cursorWithinSize db2 ∧
        (∀ p, p ∉ files.map FileState.path →
          alookup p db2.session_files = alookup p db.session_files) ∧
        (∀ f ∈ files, ∃ r, alookup f.path db2.session_files = some r ∧
          sameCheck r f = true ∧ r.last_offset ≤ r.size) := by
  induction files with
  | nil =>
    intro k db stats _ hinv
    exact ⟨db, stats, rfl, hinv, fun p _ => rfl,
      fun f hf => absurd hf (List.not_mem_nil f)⟩
  | cons f rest ih =>
    intro k db stats hnd hinv
    simp only [List.map_cons, List.nodup_cons] at hnd
    obtain ⟨hfn, hndr⟩ := hnd
    obtain ⟨newRow, hsf, hsc, hwr⟩ :=
      processFile_establish incA incI now db stats f (fun r hr => hinv f.path r hr)
    have hinv1 : cursorWithinSize (processFile incA incI now db stats f).1 := by
      intro p r hr
      rw [hsf] at hr
      by_cases hp : p = f.path
      · rw [hp, alookup_aupsert] at hr
        have h2 : newRow = r := Option.some.inj hr
        rw [← h2]
        exact hwr
      · rw [alookup_aupsert_ne hp newRow db.session_files] at hr
        exact hinv p r hr
    obtain ⟨db2, stats2, hbody, hinv2, hpres, hall⟩ :=
      ih (k + 1) (processFile incA incI now db stats f).1
        (processFile incA incI now db stats f).2 hndr hinv1
    refine ⟨db2, stats2, ?_, hinv2, ?_, ?_⟩
    · rw [refreshTxBody_cons_nofault]
      exact hbody
    · intro p hp
      simp only [List.map_cons, List.mem_cons, not_or] at hp
      rw [hpres p hp.2, hsf]
      exact alookup_aupsert_ne hp.1 newRow db.session_files
    · intro g hg
      rcases List.mem_cons.mp hg with hgf | hgr
      · subst hgf
        refine ⟨newRow, ?_, hsc, hwr⟩
        rw [hpres g.path hfn, hsf]
        exact alookup_aupsert g.path newRow db.session_files
      · exact hall g hgr

theorem refreshTx_skip_all (incA incI : Bool) (now : Nat) (files : List FileState) :
    ∀ (k : Nat) (db : DB) (stats : RefreshStats),
      (files.map FileState.path).Nodup →
      (∀ f ∈ files, ∃ r, alookup f.path db.session_files = some r ∧
        sameCheck r f = true ∧ r.last_offset ≤ r.size) →
      ∃ db2, refreshTxBody (fun _ => false) incA incI now files k db stats
          = some (db2, stats) ∧
        db2.docs = db.docs ∧ db2.sessions = db.sessions ∧ db2.settings = db.settings ∧
        (∀ p, p ∉ files.map FileState.path →
          alookup p db2.session_files = alookup p db.session_files) ∧
        (∀ f ∈ files, ∃ r, alookup f.path db.session_files = some r ∧
          sameCheck r f = true ∧
          alookup f.path db2.session_files = some { r with last_seen_at := now }) := by
  induction files with
  | nil =>
    intro k db stats _ _
    exact ⟨db, rfl, rfl, rfl, rfl, fun p _ => rfl,
      fun f hf => absurd hf (List.not_mem_nil f)⟩
  | cons f rest ih =>
    intro k db stats hnd hrows
    simp only [List.map_cons, List.nodup_cons] at hnd
    obtain ⟨hfn, hndr⟩ := hnd
    obtain ⟨r, hr, hsc, hwr⟩ := hrows f (List.mem_cons_self f rest)
    have hstep := processFile_skip incA incI now db stats f r hr hsc hwr
    have hrows2 : ∀ g ∈ rest, ∃ r2,
        alookup g.path (aupsert f.path { r with last_seen_at := now } db.session_files)
          = some r2 ∧ sameCheck r2 g = true ∧ r2.last_offset ≤ r2.size := by
      intro g hg
      obtain ⟨r2, hr2, hsc2, hwr2⟩ := hrows g (List.mem_cons_of_mem f hg)
      have hgp : g.path ≠ f.path := fun hc =>
        hfn (hc ▸ List.mem_map_of_mem FileState.path hg)
      refine ⟨r2, ?_, hsc2, hwr2⟩
      rw [alookup_aupsert_ne hgp]
      exact hr2
    obtain ⟨db2, hbody, hdocsB, hsessB, hsettB, hpresB, hallB⟩ :=
      ih (k + 1)
        ({ db with session_files :=
            aupsert f.path { r with last_seen_at := now } db.session_files }) stats
        hndr (fun g hg => hrows2 g hg)
    refine ⟨db2, ?_, hdocsB, hsessB, hsettB, ?_, ?_⟩
    · rw [refreshTxBody_cons_nofault, hstep]
      exact hbody
    · intro p hp
      simp only [List.map_cons, List.mem_cons, not_or] at hp
      rw [hpresB p hp.2]
      show alookup p (aupsert f.path { r with last_seen_at := now } db.session_files)
        = alookup p db.session_files
      exact alookup_aupsert_ne hp.1 _ _
    · intro g hg
      rcases List.mem_cons.mp hg with hgf | hgr
      · subst hgf
        refine ⟨r, hr, hsc, ?_⟩
        rw [hpresB g.path hfn]
        show alookup g.path
          (aupsert g.path { r with last_seen_at := now } db.session_files) = _
        exact alookup_aupsert _ _ _
      · obtain ⟨r2, hr2, hsc2, hlook⟩ := hallB g hgr
        have hgp : g.path ≠ f.path := fun hc =>
          hfn (hc ▸ List.mem_map_of_mem FileState.path hgr)
        refine ⟨r2, ?_, hsc2, hlook⟩
        rw [← alookup_aupsert_ne hgp ({ r with last_seen_at := now }) db.session_files]
        exact hr2

theorem preTxDb_invariant (full ftsOk : Bool) (db0 : DB) (h : cursorWithinSize db0) :
    cursorWithinSize (preTxDb full ftsOk db0) := by
  intro p r hr
  cases full with
  | true =>
    have hr2 : alookup p ([] : List (String × FileRow)) = some r := hr
    exact Option.noConfusion hr2
  | false =>
    exact h p r hr

theorem refreshRun_tx (fault : Nat → Bool) (ftsOk rbOk incA incI full reindex : Bool)
    (now : Nat) (files : List FileState) (db0 db3 : DB) (stats : RefreshStats)
    (h : refreshTxBody fault incA incI now files 0 (preTxDb full ftsOk db0)
      { files_scanned := files.length, files_updated := 0, lines_read := 0,
        lines_ingested := 0, docs_inserted := 0, sessions_upserted := 0,
        fts_available := ftsOk, fts_reindexed := false } = some (db3, stats)) :
    ∃ st, (refreshRun fault ftsOk rbOk incA incI full reindex now files db0).2
        = some st ∧
      st.files_updated = stats.files_updated ∧
      st.docs_inserted = stats.docs_inserted ∧
      (refreshRun fault ftsOk rbOk incA incI full reindex now files db0).1.docs
        = db3.docs ∧
      (refreshRun fault ftsOk rbOk incA incI full reindex now files db0).1.sessions
        = db3.sessions ∧
      (refreshRun fault ftsOk rbOk incA incI full reindex now files db0).1.session_files
        = db3.session_files := by
  unfold refreshRun
  simp only [h]
  (repeat' split) <;> exact ⟨_, rfl, rfl, rfl, rfl, rfl, rfl⟩

/-- C3: running `refresh` twice over the same directory with no file
changed in between (the same pairwise-distinct paths, contents and
mtimes), fault-free and without a full reset on the second run, leaves
the documents and sessions tables exactly as after the first run,
reports zero files updated and zero documents inserted on the second
run, and skips every file: each file passes the unchanged check
(size equal to the stored size, `mtime_epoch` within `0.0005` of the
stored value) against the row the first run left, and its row after
the second run is that same row — cursor `last_offset`/`last_line_no`
untouched — with only `last_seen_at` bumped to the second run's clock.
`cursorWithinSize` is the stored-offset-within-stored-size invariant
that ingestion itself maintains. -/
theorem C3_second_run_noop
    (ftsOk1 rbOk1 ftsOk2 rbOk2 incA incI full1 reindex1 reindex2 : Bool)
    (now1 now2 : Nat) (files : List FileState) (db0 : DB)
    (hnodup : (files.map FileState.path).Nodup)
    (hinv : cursorWithinSize db0)
    (db1 : DB) (stats1 : RefreshStats)
    (h1 : refreshRun (fun _ => false) ftsOk1 rbOk1 incA incI full1 reindex1 now1
      files db0 = (db1, some stats1))
    (db2 : DB) (stats2 : RefreshStats)
    (h2 : refreshRun (fun _ => false) ftsOk2 rbOk2 incA incI false reindex2 now2
      files db1 = (db2, some stats2)) :
    stats2.files_updated = 0 ∧
    stats2.docs_inserted = 0 ∧
    db2.docs = db1.docs ∧
    db2.sessions = db1.sessions ∧
    ∀ f ∈ files, ∃ r, alookup f.path db1.session_files = some r ∧
      sameCheck r f = true ∧
      alookup f.path db2.session_files = some { r with last_seen_at := now2 } := by
  obtain ⟨db3, statsA, hbody1, hinv3, hpres3, hall3⟩ :=
    refreshTx_run1 incA incI now1 files 0 (preTxDb full1 ftsOk1 db0)
      { files_scanned := files.length, files_updated := 0, lines_read := 0,
        lines_ingested := 0, docs_inserted := 0, sessions_upserted := 0,
        fts_available := ftsOk1, fts_reindexed := false }
      hnodup (preTxDb_invariant full1 ftsOk1 db0 hinv)
  obtain ⟨st1, hst1, hfuA, hdiA, hdocs1, hsess1, hsf1⟩ :=
    refreshRun_tx (fun _ => false) ftsOk1 rbOk1 incA incI full1 reindex1 now1
      files db0 db3 statsA hbody1
  have hdb1 : (refreshRun (fun _ => false) ftsOk1 rbOk1 incA incI full1 reindex1
      now1 files db0).1 = db1 := by rw [h1]
  have hsf1b : db1.session_files = db3.session_files := by
    rw [← hdb1]
    exact hsf1
  have hrows2 : ∀ f ∈ files, ∃ r,
      alookup f.path (preTxDb false ftsOk2 db1).session_files = some r ∧
      sameCheck r f = true ∧ r.last_offset ≤ r.size := by
    intro f hf
    obtain ⟨r, hr, hsc, hwr⟩ := hall3 f hf
    refine ⟨r, ?_, hsc, hwr⟩
    show alookup f.path db1.session_files = some r
    rw [hsf1b]
    exact hr
  obtain ⟨db4, hbody2, hdocsB, hsessB, hsettB, hpresB, hallB⟩ :=
    refreshTx_skip_all incA incI now2 files 0 (preTxDb false ftsOk2 db1)
      { files_scanned := files.length, files_updated := 0, lines_read := 0,
        lines_ingested := 0, docs_inserted := 0, sessions_upserted := 0,
        fts_available := ftsOk2, fts_reindexed := false }
      hnodup hrows2
  obtain ⟨st2, hst2, hfu2, hdi2, hdocs2, hsess2, hsf2⟩ :=
    refreshRun_tx (fun _ => false) ftsOk2 rbOk2 incA incI false reindex2 now2
      files db1 db4
      { files_scanned := files.length, files_updated := 0, lines_read := 0,
        lines_ingested := 0, docs_inserted := 0, sessions_upserted := 0,
        fts_available := ftsOk2, fts_reindexed := false }
      hbody2
  have hdb2 : (refreshRun (fun _ => false) ftsOk2 rbOk2 incA incI false reindex2
      now2 files db1).1 = db2 := by rw [h2]
  have hos2 : (refreshRun (fun _ => false) ftsOk2 rbOk2 incA incI false reindex2
      now2 files db1).2 = some stats2 := by rw [h2]
  have hseq : stats2 = st2 := Option.some.inj (hos2.symm.trans hst2)
  refine ⟨?_, ?_, ?_, ?_, ?_⟩
  · rw [hseq]
    exact hfu2
  · rw [hseq]
    exact hdi2
  · rw [← hdb2]
    exact hdocs2.trans hdocsB
  · rw [← hdb2]
    exact hsess2.trans hsessB
  · intro f hf
    obtain ⟨r, hr, hsc, hlook⟩ := hallB f hf
    refine ⟨r, hr, hsc, ?_⟩
    rw [← hdb2, hsf2]
    exact hlook

theorem C3_second_run_noop_witness :
    ({ files_scanned := 1, files_updated := 0, lines_read := 0, lines_ingested := 0,
        docs_inserted := 0, sessions_upserted := 0, fts_available := false,
        fts_reindexed := false } : RefreshStats).files_updated = 0 ∧
    ({ files_scanned := 1, files_updated := 0, lines_read := 0, lines_ingested := 0,
        docs_inserted := 0, sessions_upserted := 0, fts_available := false,
        fts_reindexed := false } : RefreshStats).docs_inserted = 0 ∧
    (refreshRun (fun _ => false) false false true true false false 7
      [({ path := "a", content := [53, 10], mtime_epoch := 1 } : FileState)]
      (refreshRun (fun _ => false) false false true true false false 3
            [({ path := "a", content := [53, 10], mtime_epoch := 1 } : FileState)]
            { settings := [], session_files := [], sessions := [], docs := [] }).1).1.docs = (refreshRun (fun _ => false) false false true true false false 3
      [({ path := "a", content := [53, 10], mtime_epoch := 1 } : FileState)]
      { settings := [], session_files := [], sessions := [], docs := [] }).1.docs ∧
    (refreshRun (fun _ => false) false false true true false false 7
      [({ path := "a", content := [53, 10], mtime_epoch := 1 } : FileState)]
      (refreshRun (fun _ => false) false false true true false false 3
            [({ path := "a", content := [53, 10], mtime_epoch := 1 } : FileState)]
            { settings := [], session_files := [], sessions := [], docs := [] }).1).1.sessions = (refreshRun (fun _ => false) false false true true false false 3
      [({ path := "a", content := [53, 10], mtime_epoch := 1 } : FileState)]
      { settings := [], session_files := [], sessions := [], docs := [] }).1.sessions ∧
    ∀ f ∈ [({ path := "a", content := [53, 10], mtime_epoch := 1 } : FileState)],
      ∃ r, alookup f.path (refreshRun (fun _ => false) false false true true false false 3
      [({ path := "a", content := [53, 10], mtime_epoch := 1 } : FileState)]
      { settings := [], session_files := [], sessions := [], docs := [] }).1.session_files = some r ∧
        sameCheck r f = true ∧
        alookup f.path (refreshRun (fun _ => false) false false true true false false 7
      [({ path := "a", content := [53, 10], mtime_epoch := 1 } : FileState)]
      (refreshRun (fun _ => false) false false true true false false 3
            [({ path := "a", content := [53, 10], mtime_epoch := 1 } : FileState)]
            { settings := [], session_files := [], sessions := [], docs := [] }).1).1.session_files = some { r with last_seen_at := 7 } :=
  C3_second_run_noop false false false false true true false false false 3 7
    [({ path := "a", content := [53, 10], mtime_epoch := 1 } : FileState)]
    { settings := [], session_files := [], sessions := [], docs := [] }
    (by decide) (fun p r h => Option.noConfusion h)
    (refreshRun (fun _ => false) false false true true false false 3
      [({ path := "a", content := [53, 10], mtime_epoch := 1 } : FileState)]
      { settings := [], session_files := [], sessions := [], docs := [] }).1
    { files_scanned := 1, files_updated := 1, lines_read := 1, lines_ingested := 0,
      docs_inserted := 0, sessions_upserted := 0, fts_available := false,
      fts_reindexed := false }
    rfl
    (refreshRun (fun _ => false) false false true true false false 7
      [({ path := "a", content := [53, 10], mtime_epoch := 1 } : FileState)]
      (refreshRun (fun _ => false) false false true true false false 3
            [({ path := "a", content := [53, 10], mtime_epoch := 1 } : FileState)]
            { settings := [], session_files := [], sessions := [], docs := [] }).1).1
    { files_scanned := 1, files_updated := 0, lines_read := 0, lines_ingested := 0,
      docs_inserted := 0, sessions_upserted := 0, fts_available := false,
      fts_reindexed := false }
    rfl

end PromptSearch